import Mathlib

set_option maxHeartbeats 1000000

/-!
Verification of the occurrence-scheduling and message-lifecycle engine of the
birthday-SMS application.  The development shallowly embeds the TypeScript
sources: calendar arithmetic models the JavaScript Date constructor as used in
src/scheduler.ts (local time, day-of-month overflow rolling forward), the
persistent store (store.ts) is a record of lists, and the scheduler and
dispatch loop are state-passing functions over it.
-/

/-- Gregorian leap-year test, as used by JavaScript Date. -/
def isLeap (y : Nat) : Bool := y % 4 == 0 && (y % 100 != 0 || y % 400 == 0)

/-- Length in days of month m (1-12) given the leap flag; 0 outside 1-12. -/
def monthDays (leap : Bool) (m : Nat) : Nat :=
  if m = 2 then (if leap then 29 else 28)
  else if m = 4 ∨ m = 6 ∨ m = 9 ∨ m = 11 then 30
  else if 1 ≤ m ∧ m ≤ 12 then 31
  else 0

def daysInMonth (y m : Nat) : Nat := monthDays (isLeap y) m

def daysInYear (y : Nat) : Nat := if isLeap y then 366 else 365

/-- Days in months 1..m-1 of a year with the given leap flag. -/
def monthsBefore (leap : Bool) : Nat → Nat
  | 0 => 0
  | m + 1 => monthsBefore leap m + monthDays leap m

/-- Days before month m (1-based) in year y. -/
def daysToMonth (y m : Nat) : Nat := monthsBefore (isLeap y) m

/-- Days in all years before year y (year 0 is the epoch). -/
def daysBeforeYear : Nat → Nat
  | 0 => 0
  | y + 1 => daysBeforeYear y + daysInYear y

/-- Day index of the civil date (y, m, d).  d may exceed the month length, in
    which case the date rolls forward exactly like the day-of-month overflow
    of the JavaScript Date constructor. -/
def civilDays (y m d : Nat) : Nat := daysBeforeYear y + daysToMonth y m + (d - 1)

/-- Local-time instant, in seconds, of the JS Date(y, m-1, d, h, mi, s) where
    s is the number of seconds into the day. -/
def mkInstant (y m d s : Nat) : Nat := 86400 * civilDays y m d + s

/-- Instant of January 1, 00:00 of year y. -/
def startOfYear (y : Nat) : Nat := 86400 * daysBeforeYear y

/-- A civil (local) datetime: how a JS Date decomposes into getFullYear,
    getMonth+1, getDate and the time of day (sod = seconds of day). -/
structure Civil where
  year : Nat
  month : Nat
  day : Nat
  sod : Nat
deriving DecidableEq, Repr

/-- A civil datetime is valid when its fields are the canonical decomposition
    of an instant. -/
abbrev Civil.valid (c : Civil) : Prop :=
  1 ≤ c.month ∧ c.month ≤ 12 ∧ 1 ≤ c.day ∧ c.day ≤ daysInMonth c.year c.month ∧
    c.sod < 86400

/-- The instant a civil datetime denotes. -/
def Civil.secs (c : Civil) : Nat := mkInstant c.year c.month c.day c.sod

/-- Model of getNextBirthdayDate (src/scheduler.ts lines 28-43).  The
    reference JS Date is given as a normalized civil datetime, so ref.year is
    ref.getFullYear(); 32400 seconds is the fixed 09:00 local fire time. -/
def getNextBirthdayDate (month day : Nat) (ref : Civil) : Nat :=
  if mkInstant ref.year month day 32400 ≤ ref.secs then
    mkInstant (ref.year + 1) month day 32400
  else
    mkInstant ref.year month day 32400

/-- Model of nextBirthday.getFullYear() in scheduleMessagesForContact: the
    calendar year the result of getNextBirthdayDate falls in (justified by
    getNextBirthdayDate_in_year below). -/
def nextBirthdayYear (month day : Nat) (ref : Civil) : Nat :=
  if mkInstant ref.year month day 32400 ≤ ref.secs then ref.year + 1 else ref.year

/-! Data model (src/types.ts) and store (src/store.ts).  Ids are natural
numbers standing for the uuid strings; instants are seconds as above. -/

inductive MessageStatus where
  | scheduled
  | sending
  | sent
  | delivered
  | failed
  | cancelled
deriving DecidableEq, Repr

/-- A contact; the MM-DD birthday string is modelled as its parsed
    (month, day) pair, exactly what getNextBirthdayDate extracts from it. -/
structure Contact where
  id : Nat
  name : String
  phone : String
  bMonth : Nat
  bDay : Nat
  createdAt : Nat
deriving DecidableEq, Repr

structure ScheduledMessage where
  id : Nat
  contactId : Nat
  contactName : String
  phone : String
  messageBody : String
  scheduledFor : Nat
  status : MessageStatus
  notificationSid : Option String := none
  errorMessage : Option String := none
  sentAt : Option Nat := none
  deliveredAt : Option Nat := none
  createdAt : Nat
  year : Nat
deriving DecidableEq, Repr

structure AppData where
  contacts : List Contact
  messages : List ScheduledMessage
deriving DecidableEq, Repr

/-- Model of addMessage (store.ts): push onto the message list. -/
def addMessage (d : AppData) (m : ScheduledMessage) : AppData :=
  { d with messages := d.messages ++ [m] }

/-- Replace the first list entry whose id matches, like the
    findIndex-then-assign in updateMessage (store.ts). -/
def updFirst (i : Nat) (f : ScheduledMessage → ScheduledMessage) :
    List ScheduledMessage → List ScheduledMessage
  | [] => []
  | m :: rest => if m.id == i then f m :: rest else m :: updFirst i f rest

/-- Model of updateMessage (store.ts): the partial-record merge is the
    update function f applied to the first message with the given id. -/
def updateMessage (d : AppData) (i : Nat)
    (f : ScheduledMessage → ScheduledMessage) : AppData :=
  { d with messages := updFirst i f d.messages }

/-- The per-message map removeContact applies to the message list. -/
def cancelIfScheduled (cid : Nat) (m : ScheduledMessage) : ScheduledMessage :=
  if m.contactId == cid && m.status == MessageStatus.scheduled then
    { m with status := MessageStatus.cancelled }
  else m

/-- Model of removeContact (store.ts lines 100-114): remove the first contact
    with the id and cancel its still-scheduled messages; false and no change
    when the contact does not exist. -/
def removeContact (cid : Nat) (d : AppData) : AppData × Bool :=
  if d.contacts.any (fun c => c.id == cid) then
    ({ contacts := d.contacts.eraseP (fun c => c.id == cid),
       messages := d.messages.map (cancelIfScheduled cid) }, true)
  else (d, false)

/-! Scheduler (src/scheduler.ts) and SMS boundary (src/sms-service.ts). -/

/-- The existing-occurrence test of scheduleMessagesForContact (lines 55-60). -/
def schedPred (cid year : Nat) (m : ScheduledMessage) : Bool :=
  m.contactId == cid && m.year == year && m.status == MessageStatus.scheduled

/-- The occurrence record scheduleMessagesForContact persists when no live
    one exists (src/scheduler.ts lines 63-74). -/
def newSchedMsg (contact : Contact) (now : Civil) (newId : Nat)
    (body : String) : ScheduledMessage :=
  { id := newId, contactId := contact.id, contactName := contact.name,
    phone := contact.phone, messageBody := body,
    scheduledFor := getNextBirthdayDate contact.bMonth contact.bDay now,
    status := MessageStatus.scheduled,
    createdAt := now.secs,
    year := nextBirthdayYear contact.bMonth contact.bDay now }

/-- Model of scheduleMessagesForContact (src/scheduler.ts lines 45-78).  The
    store is passed explicitly; the generated uuid and the randomly chosen
    rendered message body are the caller-supplied newId and body; now is the
    current time as a civil datetime. -/
def scheduleMessagesForContact (cid : Nat) (d : AppData) (now : Civil)
    (newId : Nat) (body : String) : AppData × Option ScheduledMessage :=
  match d.contacts.find? (fun c => c.id == cid) with
  | none => (d, none)
  | some contact =>
    match d.messages.find?
        (schedPred cid (nextBirthdayYear contact.bMonth contact.bDay now)) with
    | some existing => (d, some existing)
    | none =>
      (addMessage d (newSchedMsg contact now newId body),
       some (newSchedMsg contact now newId body))

/-- Supply of generated values for one scheduling step: the uuid, the
    rendered body, and the Date.now() stamp used for a simulated sid. -/
structure Fresh where
  newId : Nat
  body : String
  simStamp : Nat

/-- The loop body of scheduleAllContacts (src/scheduler.ts lines 80-90),
    iterating over the contact snapshot with a supply of fresh values. -/
def scheduleAllGo (now : Civil) (env : Nat → Fresh) :
    List Contact → AppData → Nat → AppData
  | [], d, _ => d
  | c :: rest, d, k =>
      scheduleAllGo now env rest
        (scheduleMessagesForContact c.id d now (env k).newId (env k).body).1 (k + 1)

/-- Model of scheduleAllContacts. -/
def scheduleAllContacts (d : AppData) (now : Civil) (env : Nat → Fresh) : AppData :=
  scheduleAllGo now env d.contacts d 0

structure SmsResult where
  success : Bool
  notificationSid : Option String := none
  error : Option String := none
deriving DecidableEq, Repr

/-- The external delivery provider: what the bundle-present path of
    sendBirthdaySms returns for a destination and body. -/
def Gateway := String → String → SmsResult

/-- Model of sendBirthdaySms (src/sms-service.ts lines 179-250): without a
    client bundle a successful send is simulated with the placeholder sid
    SIM_<Date.now()>; with a bundle the provider interaction is the gateway
    oracle. -/
def sendBirthdaySms (bundle : Option Gateway) (phone body : String)
    (stamp : Nat) : SmsResult :=
  match bundle with
  | none => { success := true, notificationSid := some ("SIM_" ++ toString stamp) }
  | some g => g phone body

/-- Full system state: the persisted store plus the set of armed 5-second
    delivered-update timers (message ids whose setTimeout callback from
    processDueMessages or send-now is still pending). -/
structure Sys where
  data : AppData
  pending : List Nat

/-- The due test of the dispatch loop (scheduler.ts lines 100-103). -/
def dueSched (nowS : Nat) (m : ScheduledMessage) : Bool :=
  m.status == MessageStatus.scheduled && decide (m.scheduledFor ≤ nowS)

/-- The partial update of scheduler.ts line 107: status to sending. -/
def setSending (m : ScheduledMessage) : ScheduledMessage :=
  { m with status := MessageStatus.sending }

/-- The partial update of scheduler.ts lines 118-122: status sent, provider
    sid and sent timestamp recorded. -/
def setSent (res : SmsResult) (t : Nat) (m : ScheduledMessage) : ScheduledMessage :=
  { m with status := MessageStatus.sent,
           notificationSid := res.notificationSid,
           sentAt := some t }

/-- The partial update of scheduler.ts lines 137-140: status failed, gateway
    error text recorded verbatim. -/
def setFailed (res : SmsResult) (m : ScheduledMessage) : ScheduledMessage :=
  { m with status := MessageStatus.failed, errorMessage := res.error }

/-- Store state after the sending and sent updates for one message. -/
def afterSent (bundle : Option Gateway) (now : Civil) (fr : Fresh)
    (d : AppData) (msg : ScheduledMessage) : AppData :=
  updateMessage (updateMessage d msg.id setSending) msg.id
    (setSent (sendBirthdaySms bundle msg.phone msg.messageBody fr.simStamp) now.secs)

/-- One due message's processing inside processDueMessages (scheduler.ts
    lines 104-141): mark sending, send, then on success mark sent, arm the
    delivered timer and re-schedule the contact; on failure mark failed. -/
def processOne (bundle : Option Gateway) (now : Civil) (fr : Fresh)
    (s : Sys) (msg : ScheduledMessage) : Sys :=
  if (sendBirthdaySms bundle msg.phone msg.messageBody fr.simStamp).success then
    { data :=
        if (afterSent bundle now fr s.data msg).contacts.any
            (fun c => c.id == msg.contactId) then
          (scheduleMessagesForContact msg.contactId
            (afterSent bundle now fr s.data msg) now fr.newId fr.body).1
        else afterSent bundle now fr s.data msg,
      pending := s.pending ++ [msg.id] }
  else
    { data := updateMessage (updateMessage s.data msg.id setSending) msg.id
        (setFailed (sendBirthdaySms bundle msg.phone msg.messageBody fr.simStamp)),
      pending := s.pending }

/-- The dispatch loop over the message snapshot (scheduler.ts lines 99-143);
    k counts the due messages processed so far and indexes the supply. -/
def processDueGo (bundle : Option Gateway) (now : Civil) (env : Nat → Fresh) :
    List ScheduledMessage → Sys → Nat → Sys
  | [], s, _ => s
  | msg :: rest, s, k =>
      if dueSched now.secs msg then
        processDueGo bundle now env rest (processOne bundle now (env k) s msg) (k + 1)
      else processDueGo bundle now env rest s k

/-- Model of one dispatch cycle, processDueMessages (scheduler.ts 92-144). -/
def processDueMessages (bundle : Option Gateway) (now : Civil)
    (env : Nat → Fresh) (s : Sys) : Sys :=
  processDueGo bundle now env s.data.messages s 0

/-- Model of the cancel endpoint POST /api/messages/:id/cancel
    (src/server.ts lines 396-409). -/
def cancelMessage (d : AppData) (mid : Nat) : AppData :=
  match d.messages.find? (fun m => m.id == mid) with
  | none => d
  | some m =>
    if m.status == MessageStatus.scheduled then
      updateMessage d mid (fun x => { x with status := MessageStatus.cancelled })
    else d

/-- The record created by POST /api/messages/send-now (src/server.ts lines
    341-353): scheduledFor is now, status sending, year is the current
    calendar year. -/
def sendNowRecord (c : Contact) (now : Civil) (newId : Nat)
    (body : String) : ScheduledMessage :=
  { id := newId, contactId := c.id, contactName := c.name, phone := c.phone,
    messageBody := body, scheduledFor := now.secs,
    status := MessageStatus.sending, createdAt := now.secs, year := now.year }

/-- The birthday fields a contact persisted through the POST /api/contacts
    validation always satisfies (src/server.ts lines 232-237). -/
abbrev ContactValid (c : Contact) : Prop :=
  1 ≤ c.bMonth ∧ c.bMonth ≤ 12 ∧ 1 ≤ c.bDay ∧ c.bDay ≤ 31

/-! Operations of the system as observable by the store, and the invariants
the claims quantify over. -/

def msgIds (d : AppData) : List Nat := d.messages.map (fun m => m.id)

def schedCount (d : AppData) (cid year : Nat) : Nat :=
  (d.messages.filter (schedPred cid year)).length

/-- The C1 dedup invariant: at most one scheduled occurrence per
    (subject id, recurrence year) pair. -/
def Inv1 (d : AppData) : Prop := ∀ cid year, schedCount d cid year ≤ 1

/-- The partial update of the cancel endpoint (server.ts line 407). -/
def cancelUpdate (m : ScheduledMessage) : ScheduledMessage :=
  { m with status := MessageStatus.cancelled }

/-- The delayed delivered update armed by a successful send (scheduler.ts
    lines 124-129 and server.ts lines 371-376). -/
def deliverUpdate (t : Nat) (m : ScheduledMessage) : ScheduledMessage :=
  { m with status := MessageStatus.delivered, deliveredAt := some t }

inductive Op where
  | opSchedule (cid : Nat) (now : Civil) (fr : Fresh)
  | opScheduleAll (now : Civil) (env : Nat → Fresh)
  | opDispatch (bundle : Option Gateway) (now : Civil) (env : Nat → Fresh)
  | opCancel (mid : Nat)
  | opRemoveContact (cid : Nat)
  | opDeliver (mid : Nat) (t : Nat)

def stepOp (s : Sys) : Op → Sys
  | Op.opSchedule cid now fr =>
      { s with data := (scheduleMessagesForContact cid s.data now fr.newId fr.body).1 }
  | Op.opScheduleAll now env =>
      { s with data := scheduleAllContacts s.data now env }
  | Op.opDispatch bundle now env => processDueMessages bundle now env s
  | Op.opCancel mid => { s with data := cancelMessage s.data mid }
  | Op.opRemoveContact cid => { s with data := (removeContact cid s.data).1 }
  | Op.opDeliver mid t =>
      { data := updateMessage s.data mid (deliverUpdate t),
        pending := s.pending.erase mid }

def runOps (s : Sys) (ops : List Op) : Sys := ops.foldl stepOp s

/-- Well-formedness of one operation against the current state: uuids are
    fresh and pairwise distinct, and a delivered timer only fires if it was
    armed. -/
def WfOp (s : Sys) : Op → Prop
  | Op.opSchedule _ _ fr => fr.newId ∉ msgIds s.data
  | Op.opScheduleAll _ env =>
      (∀ i, (env i).newId ∉ msgIds s.data) ∧
      (∀ i j, i ≠ j → (env i).newId ≠ (env j).newId)
  | Op.opDispatch _ _ env =>
      (∀ i, (env i).newId ∉ msgIds s.data) ∧
      (∀ i j, i ≠ j → (env i).newId ≠ (env j).newId)
  | Op.opCancel _ => True
  | Op.opRemoveContact _ => True
  | Op.opDeliver mid _ => mid ∈ s.pending

def WfTrace : Sys → List Op → Prop
  | _, [] => True
  | s, op :: rest => WfOp s op ∧ WfTrace (stepOp s op) rest

/-- Every armed delivered timer points at a message that is sent or already
    delivered. -/
def PendOk (s : Sys) : Prop :=
  ∀ mid ∈ s.pending, ∃ m ∈ s.data.messages,
    m.id = mid ∧ (m.status = MessageStatus.sent ∨ m.status = MessageStatus.delivered)

def SysInv (s : Sys) : Prop := (msgIds s.data).Nodup ∧ PendOk s

/-- The statuses the spec treats as final or post-send for C4. -/
def termStatus (st : MessageStatus) : Prop :=
  st = MessageStatus.sent ∨ st = MessageStatus.delivered ∨
  st = MessageStatus.failed ∨ st = MessageStatus.cancelled

/-- The only status change C4 allows after such a status: stay put, or the
    one sent-to-delivered transition. -/
def statusStep (a b : MessageStatus) : Prop :=
  b = a ∨ (a = MessageStatus.sent ∧ b = MessageStatus.delivered)

/-- The operations C1 quantifies over. -/
def IsSchedulerOp : Op → Prop
  | Op.opSchedule _ _ _ => True
  | Op.opScheduleAll _ _ => True
  | Op.opDispatch _ _ _ => True
  | _ => False

lemma monthsBefore_mono (b : Bool) {m m' : Nat} (h : m ≤ m') :
    monthsBefore b m ≤ monthsBefore b m' := by
  induction h with
  | refl => exact Nat.le_refl _
  | step _ ih => exact Nat.le_trans ih (Nat.le_add_right _ _)

lemma monthsBefore_12 (b : Bool) : monthsBefore b 12 = if b then 335 else 334 := by
  cases b <;> decide

lemma monthsBefore_13 (b : Bool) : monthsBefore b 13 = if b then 366 else 365 := by
  cases b <;> decide

lemma monthDays_le_31 (b : Bool) (m : Nat) : monthDays b m ≤ 31 := by
  unfold monthDays
  split
  · split <;> omega
  · split
    · omega
    · split <;> omega

lemma daysToMonth_add (y m : Nat) :
    daysToMonth y m + daysInMonth y m = daysToMonth y (m + 1) := rfl

lemma daysBeforeYear_succ (y : Nat) :
    daysBeforeYear (y + 1) = daysBeforeYear y + daysInYear y := rfl

lemma civilDays_lt_next_year {y m d : Nat} (hm : m ≤ 12) (hd : d ≤ 31) :
    civilDays y m d < daysBeforeYear (y + 1) := by
  have h1 : daysToMonth y m ≤ daysToMonth y 12 := monthsBefore_mono _ hm
  have h2 : daysToMonth y 12 + 31 ≤ daysInYear y := by
    unfold daysToMonth daysInYear
    rcases Bool.eq_false_or_eq_true (isLeap y) with hb | hb <;> rw [hb] <;> decide
  have h3 := daysBeforeYear_succ y
  unfold civilDays
  omega

lemma daysBeforeYear_le_civilDays (y m d : Nat) :
    daysBeforeYear y ≤ civilDays y m d := by
  unfold civilDays; omega

lemma daysBeforeYear_mono {y y' : Nat} (h : y ≤ y') :
    daysBeforeYear y ≤ daysBeforeYear y' := by
  induction h with
  | refl => exact Nat.le_refl _
  | step _ ih => exact Nat.le_trans ih (Nat.le_add_right _ _)

lemma startOfYear_mono {y y' : Nat} (h : y ≤ y') :
    startOfYear y ≤ startOfYear y' :=
  Nat.mul_le_mul_left _ (daysBeforeYear_mono h)

/-- A valid civil datetime's instant lies within its calendar year. -/
lemma civil_secs_bounds (c : Civil) (h : c.valid) :
    startOfYear c.year ≤ c.secs ∧ c.secs < startOfYear (c.year + 1) := by
  obtain ⟨hm1, hm2, hd1, hd2, hs⟩ := h
  constructor
  · have := daysBeforeYear_le_civilDays c.year c.month c.day
    unfold Civil.secs mkInstant startOfYear
    omega
  · have h1 : daysToMonth c.year c.month + daysInMonth c.year c.month =
        daysToMonth c.year (c.month + 1) := daysToMonth_add _ _
    have h2 : daysToMonth c.year (c.month + 1) ≤ daysToMonth c.year 13 :=
      monthsBefore_mono _ (by omega)
    have h3 : daysToMonth c.year 13 = daysInYear c.year := by
      unfold daysToMonth daysInYear
      rcases Bool.eq_false_or_eq_true (isLeap c.year) with hb | hb <;>
        rw [hb] <;> decide
    have h4 := daysBeforeYear_succ c.year
    unfold Civil.secs mkInstant startOfYear civilDays
    omega

lemma monthsBefore_flag_bound (b b' : Bool) (m : Nat) (hm : m < 14) :
    monthsBefore b' m ≤ monthsBefore b m + 1 := by
  revert b b' m
  decide

lemma monthsBefore_flag_mono (b : Bool) (m : Nat) (hm : m < 14) :
    monthsBefore false m ≤ monthsBefore b m := by
  revert b m
  decide

lemma isLeap_succ_of_isLeap {y : Nat} (h : isLeap y = true) :
    isLeap (y + 1) = false := by
  have h4 : y % 4 = 0 := by
    unfold isLeap at h
    simp only [Bool.and_eq_true, beq_iff_eq] at h
    exact h.1
  have h5 : (y + 1) % 4 = 1 := by omega
  unfold isLeap
  simp [h5]

/-- The same month/day one year later is at most 366 days out. -/
lemma mkInstant_succ_year_le {y m d s : Nat} (hm : m ≤ 12) :
    mkInstant (y + 1) m d s ≤ mkInstant y m d s + 366 * 86400 := by
  have h4 := daysBeforeYear_succ y
  have key : daysInYear y + daysToMonth (y + 1) m ≤ daysToMonth y m + 366 := by
    rcases Bool.eq_false_or_eq_true (isLeap y) with hb | hb
    · have h1 := isLeap_succ_of_isLeap hb
      have hmono := monthsBefore_flag_mono (isLeap y) m (by omega)
      unfold daysToMonth daysInYear
      rw [hb] at hmono ⊢
      rw [h1]
      have hif : (if (true : Bool) = true then 366 else 365) = 366 := rfl
      rw [hif]
      omega
    · have hbd := monthsBefore_flag_bound (isLeap y) (isLeap (y + 1)) m (by omega)
      unfold daysToMonth daysInYear
      rw [hb] at hbd ⊢
      have hif : (if (false : Bool) = true then 366 else 365) = 365 := rfl
      rw [hif]
      omega
  unfold mkInstant civilDays
  omega

/-- The result of getNextBirthdayDate lies inside the calendar year
    nextBirthdayYear computes, which justifies modelling getFullYear of the
    returned Date by nextBirthdayYear. -/
lemma getNextBirthdayDate_in_year {month day : Nat} (ref : Civil)
    (hm2 : month ≤ 12) (hd2 : day ≤ 31) :
    startOfYear (nextBirthdayYear month day ref) ≤ getNextBirthdayDate month day ref ∧
    getNextBirthdayDate month day ref < startOfYear (nextBirthdayYear month day ref + 1) := by
  unfold getNextBirthdayDate nextBirthdayYear
  split
  · have hlo := daysBeforeYear_le_civilDays (ref.year + 1) month day
    have hhi := civilDays_lt_next_year (y := ref.year + 1) hm2 hd2
    unfold mkInstant startOfYear
    omega
  · have hlo := daysBeforeYear_le_civilDays ref.year month day
    have hhi := civilDays_lt_next_year (y := ref.year) hm2 hd2
    unfold mkInstant startOfYear
    omega

/-- C2 (amended): for a recurrence (month 1-12, day 1-31) whose day exists in
    both the reference year and the following year, getNextBirthdayDate
    returns an instant strictly after the reference, at 09:00 local time on
    the given month and day, in the reference's calendar year or the next,
    never more than 366 days after the reference; the reference-year 09:00
    candidate is returned iff it is strictly after the reference, otherwise
    the same month/day one calendar year later. -/
theorem c2_next_fire_instant (month day : Nat) (ref : Civil)
    (hm1 : 1 ≤ month) (hm2 : month ≤ 12) (hd1 : 1 ≤ day)
    (hdy : day ≤ daysInMonth ref.year month)
    (hdy' : day ≤ daysInMonth (ref.year + 1) month)
    (href : ref.valid) :
    ref.secs < getNextBirthdayDate month day ref
    ∧ (∃ y, (y = ref.year ∨ y = ref.year + 1) ∧
        Civil.valid ⟨y, month, day, 32400⟩ ∧
        getNextBirthdayDate month day ref = Civil.secs ⟨y, month, day, 32400⟩)
    ∧ getNextBirthdayDate month day ref ≤ ref.secs + 366 * 86400
    ∧ (mkInstant ref.year month day 32400 ≤ ref.secs →
        getNextBirthdayDate month day ref = mkInstant (ref.year + 1) month day 32400)
    ∧ (ref.secs < mkInstant ref.year month day 32400 →
        getNextBirthdayDate month day ref = mkInstant ref.year month day 32400) := by
  have hb := civil_secs_bounds ref href
  unfold getNextBirthdayDate
  by_cases hc : mkInstant ref.year month day 32400 ≤ ref.secs
  · rw [if_pos hc]
    refine ⟨?_, ⟨ref.year + 1, Or.inr rfl,
      ⟨hm1, hm2, hd1, hdy', (by decide : (32400 : Nat) < 86400)⟩, rfl⟩,
      ?_, fun _ => rfl, fun h => absurd hc (by omega)⟩
    · have h1 : startOfYear (ref.year + 1) ≤ mkInstant (ref.year + 1) month day 32400 := by
        have := daysBeforeYear_le_civilDays (ref.year + 1) month day
        unfold mkInstant startOfYear
        omega
      exact lt_of_lt_of_le hb.2 h1
    · exact le_trans (mkInstant_succ_year_le hm2) (by omega)
  · rw [if_neg hc]
    push_neg at hc
    refine ⟨hc, ⟨ref.year, Or.inl rfl,
      ⟨hm1, hm2, hd1, hdy, (by decide : (32400 : Nat) < 86400)⟩, rfl⟩,
      ?_, fun h => absurd hc (by omega), fun _ => rfl⟩
    have hday31 : day ≤ 31 := le_trans hdy (monthDays_le_31 _ _)
    have hlt := civilDays_lt_next_year (y := ref.year) hm2 hday31
    have hsucc := daysBeforeYear_succ ref.year
    have h5 : daysInYear ref.year ≤ 366 := by unfold daysInYear; split <;> omega
    have hb1 := hb.1
    unfold startOfYear at hb1
    unfold mkInstant
    omega

/-- C2 witness: recurrence 03-15 against reference 0001-01-01T00:00. -/
theorem c2_next_fire_instant_witness :
    Civil.secs ⟨1, 1, 1, 0⟩ < getNextBirthdayDate 3 15 ⟨1, 1, 1, 0⟩
    ∧ (∃ y, (y = Civil.year ⟨1, 1, 1, 0⟩ ∨ y = Civil.year ⟨1, 1, 1, 0⟩ + 1) ∧
        Civil.valid ⟨y, 3, 15, 32400⟩ ∧
        getNextBirthdayDate 3 15 ⟨1, 1, 1, 0⟩ = Civil.secs ⟨y, 3, 15, 32400⟩)
    ∧ getNextBirthdayDate 3 15 ⟨1, 1, 1, 0⟩ ≤ Civil.secs ⟨1, 1, 1, 0⟩ + 366 * 86400
    ∧ (mkInstant (Civil.year ⟨1, 1, 1, 0⟩) 3 15 32400 ≤ Civil.secs ⟨1, 1, 1, 0⟩ →
        getNextBirthdayDate 3 15 ⟨1, 1, 1, 0⟩ =
          mkInstant (Civil.year ⟨1, 1, 1, 0⟩ + 1) 3 15 32400)
    ∧ (Civil.secs ⟨1, 1, 1, 0⟩ < mkInstant (Civil.year ⟨1, 1, 1, 0⟩) 3 15 32400 →
        getNextBirthdayDate 3 15 ⟨1, 1, 1, 0⟩ =
          mkInstant (Civil.year ⟨1, 1, 1, 0⟩) 3 15 32400) :=
  c2_next_fire_instant 3 15 ⟨1, 1, 1, 0⟩ (by decide) (by decide) (by decide)
    (by decide) (by decide) (by decide)

/-- C2 counterexample: for the recurrence 02-29 (month 1-12, day 1-31, as the
    claim allows) and reference 0001-01-01T00:00, the returned instant is
    09:00 on March 1 of year 1, and there is no valid civil datetime on
    February 29 in year 1 or year 2 at all, so the result is not on the given
    month and day. -/
theorem c2_counterexample :
    getNextBirthdayDate 2 29 ⟨1, 1, 1, 0⟩ = Civil.secs ⟨1, 3, 1, 32400⟩
    ∧ Civil.valid (⟨1, 1, 1, 0⟩ : Civil)
    ∧ ¬ Civil.valid (⟨1, 2, 29, 32400⟩ : Civil)
    ∧ ¬ Civil.valid (⟨2, 2, 29, 32400⟩ : Civil) := by decide

/-- C10: for the recurrence 02-29, when the selected target year is not a
    leap year, getNextBirthdayDate returns 09:00 on March 1 of that year:
    the day-of-month overflow policy is roll-forward (one day past
    February 28), not clamp-to-February-28. -/
theorem c10_feb29_rolls_to_march1 (ref : Civil)
    (hnl : isLeap (nextBirthdayYear 2 29 ref) = false) :
    getNextBirthdayDate 2 29 ref =
      Civil.secs ⟨nextBirthdayYear 2 29 ref, 3, 1, 32400⟩
    ∧ Civil.valid (⟨nextBirthdayYear 2 29 ref, 3, 1, 32400⟩ : Civil)
    ∧ getNextBirthdayDate 2 29 ref ≠
        Civil.secs ⟨nextBirthdayYear 2 29 ref, 2, 28, 32400⟩ := by
  have heq : ∀ z, isLeap z = false →
      mkInstant z 2 29 32400 = Civil.secs ⟨z, 3, 1, 32400⟩ := by
    intro z hz
    unfold Civil.secs mkInstant civilDays daysToMonth
    rw [hz]
    norm_num [monthsBefore, monthDays]
  have hne : ∀ z, isLeap z = false →
      mkInstant z 2 29 32400 ≠ Civil.secs ⟨z, 2, 28, 32400⟩ := by
    intro z hz
    unfold Civil.secs mkInstant civilDays daysToMonth
    rw [hz]
    norm_num [monthsBefore, monthDays]
  have hval : ∀ z, isLeap z = false →
      Civil.valid (⟨z, 3, 1, 32400⟩ : Civil) := by
    intro z hz
    have h31 : daysInMonth z 3 = 31 := by
      unfold daysInMonth
      rw [hz]
      decide
    refine ⟨(by decide : (1 : Nat) ≤ 3), (by decide : (3 : Nat) ≤ 12),
      Nat.le_refl 1, ?_, (by decide : (32400 : Nat) < 86400)⟩
    show 1 ≤ daysInMonth z 3
    omega
  have hres : getNextBirthdayDate 2 29 ref =
      mkInstant (nextBirthdayYear 2 29 ref) 2 29 32400 := by
    unfold getNextBirthdayDate nextBirthdayYear
    split <;> rfl
  rw [hres]
  exact ⟨heq _ hnl, hval _ hnl, hne _ hnl⟩

/-- C10 witness: reference 0001-01-01T00:00, whose selected target year 1 is
    not a leap year. -/
theorem c10_feb29_rolls_to_march1_witness :
    getNextBirthdayDate 2 29 ⟨1, 1, 1, 0⟩ =
      Civil.secs ⟨nextBirthdayYear 2 29 ⟨1, 1, 1, 0⟩, 3, 1, 32400⟩
    ∧ Civil.valid (⟨nextBirthdayYear 2 29 ⟨1, 1, 1, 0⟩, 3, 1, 32400⟩ : Civil)
    ∧ getNextBirthdayDate 2 29 ⟨1, 1, 1, 0⟩ ≠
        Civil.secs ⟨nextBirthdayYear 2 29 ⟨1, 1, 1, 0⟩, 2, 28, 32400⟩ :=
  c10_feb29_rolls_to_march1 ⟨1, 1, 1, 0⟩ (by decide)

/-- C8: deleting an existing subject returns true, transitions exactly its
    scheduled occurrences to cancelled in place, deletes no occurrence
    record, and leaves every other occurrence record byte-for-byte
    unchanged. -/
theorem c8_remove_contact_cascade (cid : Nat) (d : AppData)
    (h : ∃ c ∈ d.contacts, c.id = cid) :
    (removeContact cid d).2 = true
    ∧ (removeContact cid d).1.messages.length = d.messages.length
    ∧ (removeContact cid d).1.messages = d.messages.map (fun m =>
        if m.contactId = cid ∧ m.status = MessageStatus.scheduled then
          { m with status := MessageStatus.cancelled }
        else m)
    ∧ (∀ m ∈ d.messages, ¬(m.contactId = cid ∧ m.status = MessageStatus.scheduled) →
        m ∈ (removeContact cid d).1.messages)
    ∧ (∀ m ∈ d.messages, m.contactId = cid → m.status = MessageStatus.scheduled →
        { m with status := MessageStatus.cancelled } ∈ (removeContact cid d).1.messages) := by
  have hany : d.contacts.any (fun c => c.id == cid) = true := by
    obtain ⟨c, hc, hid⟩ := h
    exact List.any_eq_true.mpr ⟨c, hc, by simp [hid]⟩
  have hmap : ∀ m : ScheduledMessage, cancelIfScheduled cid m =
      (if m.contactId = cid ∧ m.status = MessageStatus.scheduled then
        { m with status := MessageStatus.cancelled } else m) := by
    intro m
    unfold cancelIfScheduled
    by_cases h1 : m.contactId = cid <;> by_cases h2 : m.status = MessageStatus.scheduled <;>
      simp [h1, h2]
  unfold removeContact
  rw [if_pos hany]
  refine ⟨rfl, by simp, ?_, ?_, ?_⟩
  · simpa using List.map_congr_left (fun m _ => hmap m)
  · intro m hm hnot
    have : cancelIfScheduled cid m = m := by rw [hmap]; rw [if_neg hnot]
    simpa [this] using List.mem_map_of_mem (cancelIfScheduled cid) hm
  · intro m hm h1 h2
    have : cancelIfScheduled cid m = { m with status := MessageStatus.cancelled } := by
      rw [hmap]; rw [if_pos ⟨h1, h2⟩]
    simpa [this] using List.mem_map_of_mem (cancelIfScheduled cid) hm

/-- C8 witness: a store with one contact and three messages (one scheduled
    for the deleted contact, one sent for it, one scheduled for another). -/
theorem c8_remove_contact_cascade_witness :
    (removeContact 7
      ⟨[⟨7, "a", "p", 3, 15, 0⟩],
       [⟨100, 7, "a", "p", "b", 50, MessageStatus.scheduled, none, none, none, none, 0, 1⟩,
        ⟨101, 7, "a", "p", "b", 40, MessageStatus.sent, some "S", none, some 41, none, 0, 1⟩,
        ⟨102, 8, "z", "q", "b", 60, MessageStatus.scheduled, none, none, none, none, 0, 1⟩]⟩).2 = true
    ∧ (removeContact 7
      ⟨[⟨7, "a", "p", 3, 15, 0⟩],
       [⟨100, 7, "a", "p", "b", 50, MessageStatus.scheduled, none, none, none, none, 0, 1⟩,
        ⟨101, 7, "a", "p", "b", 40, MessageStatus.sent, some "S", none, some 41, none, 0, 1⟩,
        ⟨102, 8, "z", "q", "b", 60, MessageStatus.scheduled, none, none, none, none, 0, 1⟩]⟩).1.messages.length =
      ([⟨100, 7, "a", "p", "b", 50, MessageStatus.scheduled, none, none, none, none, 0, 1⟩,
        ⟨101, 7, "a", "p", "b", 40, MessageStatus.sent, some "S", none, some 41, none, 0, 1⟩,
        ⟨102, 8, "z", "q", "b", 60, MessageStatus.scheduled, none, none, none, none, 0, 1⟩] :
          List ScheduledMessage).length
    ∧ (removeContact 7
      ⟨[⟨7, "a", "p", 3, 15, 0⟩],
       [⟨100, 7, "a", "p", "b", 50, MessageStatus.scheduled, none, none, none, none, 0, 1⟩,
        ⟨101, 7, "a", "p", "b", 40, MessageStatus.sent, some "S", none, some 41, none, 0, 1⟩,
        ⟨102, 8, "z", "q", "b", 60, MessageStatus.scheduled, none, none, none, none, 0, 1⟩]⟩).1.messages =
      ([⟨100, 7, "a", "p", "b", 50, MessageStatus.scheduled, none, none, none, none, 0, 1⟩,
        ⟨101, 7, "a", "p", "b", 40, MessageStatus.sent, some "S", none, some 41, none, 0, 1⟩,
        ⟨102, 8, "z", "q", "b", 60, MessageStatus.scheduled, none, none, none, none, 0, 1⟩] :
          List ScheduledMessage).map (fun m =>
        if m.contactId = 7 ∧ m.status = MessageStatus.scheduled then
          { m with status := MessageStatus.cancelled }
        else m)
    ∧ (∀ m ∈ ([⟨100, 7, "a", "p", "b", 50, MessageStatus.scheduled, none, none, none, none, 0, 1⟩,
        ⟨101, 7, "a", "p", "b", 40, MessageStatus.sent, some "S", none, some 41, none, 0, 1⟩,
        ⟨102, 8, "z", "q", "b", 60, MessageStatus.scheduled, none, none, none, none, 0, 1⟩] :
          List ScheduledMessage), ¬(m.contactId = 7 ∧ m.status = MessageStatus.scheduled) →
        m ∈ (removeContact 7
      ⟨[⟨7, "a", "p", 3, 15, 0⟩],
       [⟨100, 7, "a", "p", "b", 50, MessageStatus.scheduled, none, none, none, none, 0, 1⟩,
        ⟨101, 7, "a", "p", "b", 40, MessageStatus.sent, some "S", none, some 41, none, 0, 1⟩,
        ⟨102, 8, "z", "q", "b", 60, MessageStatus.scheduled, none, none, none, none, 0, 1⟩]⟩).1.messages)
    ∧ (∀ m ∈ ([⟨100, 7, "a", "p", "b", 50, MessageStatus.scheduled, none, none, none, none, 0, 1⟩,
        ⟨101, 7, "a", "p", "b", 40, MessageStatus.sent, some "S", none, some 41, none, 0, 1⟩,
        ⟨102, 8, "z", "q", "b", 60, MessageStatus.scheduled, none, none, none, none, 0, 1⟩] :
          List ScheduledMessage), m.contactId = 7 → m.status = MessageStatus.scheduled →
        { m with status := MessageStatus.cancelled } ∈ (removeContact 7
      ⟨[⟨7, "a", "p", 3, 15, 0⟩],
       [⟨100, 7, "a", "p", "b", 50, MessageStatus.scheduled, none, none, none, none, 0, 1⟩,
        ⟨101, 7, "a", "p", "b", 40, MessageStatus.sent, some "S", none, some 41, none, 0, 1⟩,
        ⟨102, 8, "z", "q", "b", 60, MessageStatus.scheduled, none, none, none, none, 0, 1⟩]⟩).1.messages) :=
  c8_remove_contact_cascade 7 _ (by decide)

lemma sched_eq_no_contact {cid : Nat} {d : AppData} {now : Civil} {a : Nat}
    {b : String} (h : d.contacts.find? (fun c => c.id == cid) = none) :
    scheduleMessagesForContact cid d now a b = (d, none) := by
  unfold scheduleMessagesForContact
  split
  · rfl
  · rename_i contact heq
    rw [h] at heq
    exact Option.noConfusion heq

lemma sched_eq_found {cid : Nat} {d : AppData} {now : Civil} {a : Nat}
    {b : String} {contact : Contact} {e : ScheduledMessage}
    (hc : d.contacts.find? (fun c => c.id == cid) = some contact)
    (hm : d.messages.find?
      (schedPred cid (nextBirthdayYear contact.bMonth contact.bDay now)) = some e) :
    scheduleMessagesForContact cid d now a b = (d, some e) := by
  unfold scheduleMessagesForContact
  split
  · rename_i heq
    rw [hc] at heq
    exact Option.noConfusion heq
  · rename_i contact' heq
    rw [hc] at heq
    cases heq
    split
    · rename_i e' heq2
      rw [hm] at heq2
      cases heq2
      rfl
    · rename_i heq2
      rw [hm] at heq2
      exact Option.noConfusion heq2

lemma sched_eq_create {cid : Nat} {d : AppData} {now : Civil} {a : Nat}
    {b : String} {contact : Contact}
    (hc : d.contacts.find? (fun c => c.id == cid) = some contact)
    (hm : d.messages.find?
      (schedPred cid (nextBirthdayYear contact.bMonth contact.bDay now)) = none) :
    scheduleMessagesForContact cid d now a b =
      (addMessage d (newSchedMsg contact now a b),
       some (newSchedMsg contact now a b)) := by
  unfold scheduleMessagesForContact
  split
  · rename_i heq
    rw [hc] at heq
    exact Option.noConfusion heq
  · rename_i contact' heq
    rw [hc] at heq
    cases heq
    split
    · rename_i e' heq2
      rw [hm] at heq2
      exact Option.noConfusion heq2
    · rfl

/-- C5: every occurrence record created by scheduleMessagesForContact or by
    the send-now endpoint has its recurrence year equal to the calendar year
    its fire instant falls in. -/
theorem c5_recurrence_year_matches_fire_instant :
    (∀ (cid : Nat) (d : AppData) (now : Civil) (newId : Nat) (body : String),
      (∀ c ∈ d.contacts, ContactValid c) →
      ∀ msg ∈ (scheduleMessagesForContact cid d now newId body).1.messages,
        msg ∈ d.messages ∨
          (startOfYear msg.year ≤ msg.scheduledFor ∧
            msg.scheduledFor < startOfYear (msg.year + 1)))
    ∧ (∀ (c : Contact) (now : Civil) (newId : Nat) (body : String),
        now.valid →
        startOfYear (sendNowRecord c now newId body).year ≤
            (sendNowRecord c now newId body).scheduledFor ∧
          (sendNowRecord c now newId body).scheduledFor <
            startOfYear ((sendNowRecord c now newId body).year + 1)) := by
  constructor
  · intro cid d now newId body hcv msg hmsg
    cases hfc : d.contacts.find? (fun c => c.id == cid) with
    | none =>
      rw [sched_eq_no_contact hfc] at hmsg
      exact Or.inl hmsg
    | some contact =>
      cases hfm : d.messages.find?
          (schedPred cid (nextBirthdayYear contact.bMonth contact.bDay now)) with
      | some e =>
        rw [sched_eq_found hfc hfm] at hmsg
        exact Or.inl hmsg
      | none =>
        rw [sched_eq_create hfc hfm] at hmsg
        have hmsg' : msg ∈ d.messages ++ [newSchedMsg contact now newId body] := hmsg
        rcases List.mem_append.mp hmsg' with h | h
        · exact Or.inl h
        · have hmeq : msg = newSchedMsg contact now newId body := by simpa using h
          subst hmeq
          right
          have hcin : contact ∈ d.contacts := List.mem_of_find?_eq_some hfc
          obtain ⟨h1, h2, h3, h4⟩ := hcv contact hcin
          exact getNextBirthdayDate_in_year now h2 h4
  · intro c now newId body hv
    exact civil_secs_bounds now hv

/-- C5 witness: a fresh schedule call on a one-contact store in year 1, and a
    send-now record at 0001-01-01T00:00. -/
theorem c5_recurrence_year_matches_fire_instant_witness :
    (∀ msg ∈ (scheduleMessagesForContact 0
        ⟨[⟨0, "a", "p", 3, 15, 0⟩], []⟩ ⟨1, 1, 1, 0⟩ 5 "b").1.messages,
      msg ∈ AppData.messages ⟨[⟨0, "a", "p", 3, 15, 0⟩], []⟩ ∨
        (startOfYear msg.year ≤ msg.scheduledFor ∧
          msg.scheduledFor < startOfYear (msg.year + 1)))
    ∧ (startOfYear (sendNowRecord ⟨0, "a", "p", 3, 15, 0⟩ ⟨1, 1, 1, 0⟩ 6 "b").year ≤
          (sendNowRecord ⟨0, "a", "p", 3, 15, 0⟩ ⟨1, 1, 1, 0⟩ 6 "b").scheduledFor ∧
        (sendNowRecord ⟨0, "a", "p", 3, 15, 0⟩ ⟨1, 1, 1, 0⟩ 6 "b").scheduledFor <
          startOfYear ((sendNowRecord ⟨0, "a", "p", 3, 15, 0⟩ ⟨1, 1, 1, 0⟩ 6 "b").year + 1)) :=
  ⟨c5_recurrence_year_matches_fire_instant.1 0
      ⟨[⟨0, "a", "p", 3, 15, 0⟩], []⟩ ⟨1, 1, 1, 0⟩ 5 "b" (by decide),
   c5_recurrence_year_matches_fire_instant.2 ⟨0, "a", "p", 3, 15, 0⟩
      ⟨1, 1, 1, 0⟩ 6 "b" (by decide)⟩

lemma find?_append_none {α : Type} {p : α → Bool} {l₁ : List α} (l₂ : List α)
    (h : l₁.find? p = none) : (l₁ ++ l₂).find? p = l₂.find? p := by
  induction l₁ with
  | nil => simp
  | cons a t ih =>
    cases hpa : p a with
    | true =>
      rw [List.find?_cons_of_pos _ hpa] at h
      exact Option.noConfusion h
    | false =>
      rw [List.find?_cons_of_neg _ (by simp [hpa])] at h
      rw [List.cons_append, List.find?_cons_of_neg _ (by simp [hpa])]
      exact ih h

/-- Between two reads of the clock that both happen before the next birthday
    fire instant, the recurrence year getNextBirthdayDate targets does not
    change. -/
lemma nextBirthdayYear_stable (month day : Nat) (r₁ r₂ : Civil)
    (hm2 : month ≤ 12) (hd31 : day ≤ 31)
    (h1 : r₁.valid) (h2 : r₂.valid) (h12 : r₁.secs ≤ r₂.secs)
    (hb : r₂.secs < getNextBirthdayDate month day r₁) :
    nextBirthdayYear month day r₂ = nextBirthdayYear month day r₁ := by
  have b1 := civil_secs_bounds r₁ h1
  have b2 := civil_secs_bounds r₂ h2
  have hyge : r₁.year ≤ r₂.year := by
    by_contra hlt
    push_neg at hlt
    have : startOfYear (r₂.year + 1) ≤ startOfYear r₁.year :=
      startOfYear_mono (by omega)
    omega
  unfold getNextBirthdayDate at hb
  unfold nextBirthdayYear
  by_cases hcond : mkInstant r₁.year month day 32400 ≤ r₁.secs
  · rw [if_pos hcond] at hb
    have hfhi : mkInstant (r₁.year + 1) month day 32400 <
        startOfYear (r₁.year + 2) := by
      have h5 : civilDays (r₁.year + 1) month day < daysBeforeYear (r₁.year + 2) :=
        civilDays_lt_next_year hm2 hd31
      unfold mkInstant startOfYear
      omega
    have hyle : r₂.year ≤ r₁.year + 1 := by
      by_contra hgt
      push_neg at hgt
      have : startOfYear (r₁.year + 2) ≤ startOfYear r₂.year :=
        startOfYear_mono (by omega)
      omega
    have hcase : r₂.year = r₁.year ∨ r₂.year = r₁.year + 1 := by omega
    rw [if_pos hcond]
    rcases hcase with he | he
    · rw [he, if_pos (le_trans hcond h12)]
    · rw [he, if_neg (by omega)]
  · rw [if_neg hcond] at hb
    have hfhi : mkInstant r₁.year month day 32400 < startOfYear (r₁.year + 1) := by
      have := civilDays_lt_next_year (y := r₁.year) hm2 hd31
      unfold mkInstant startOfYear
      omega
    have hyle : r₂.year ≤ r₁.year := by
      by_contra hgt
      push_neg at hgt
      have : startOfYear (r₁.year + 1) ≤ startOfYear r₂.year :=
        startOfYear_mono (by omega)
      omega
    have he : r₂.year = r₁.year := by omega
    rw [if_neg hcond, he, if_neg (by omega)]

/-- C3: calling scheduleMessagesForContact for an existing subject twice in
    succession, the second call before the subject's fire instant, returns
    the identical occurrence both times and the second call leaves the store
    unchanged. -/
theorem c3_ensure_scheduled_idempotent
    (cid : Nat) (d d₁ : AppData) (now₁ now₂ : Civil) (c : Contact)
    (a₁ a₂ : Nat) (b₁ b₂ : String) (m₁ : ScheduledMessage)
    (hc : d.contacts.find? (fun x => x.id == cid) = some c)
    (hcv : ContactValid c)
    (hv1 : now₁.valid) (hv2 : now₂.valid)
    (h12 : now₁.secs ≤ now₂.secs)
    (hbefore : now₂.secs < getNextBirthdayDate c.bMonth c.bDay now₁)
    (h1 : scheduleMessagesForContact cid d now₁ a₁ b₁ = (d₁, some m₁)) :
    scheduleMessagesForContact cid d₁ now₂ a₂ b₂ = (d₁, some m₁) := by
  obtain ⟨hbm1, hbm2, hbd1, hbd31⟩ := hcv
  have hyear := nextBirthdayYear_stable c.bMonth c.bDay now₁ now₂ hbm2 hbd31
    hv1 hv2 h12 hbefore
  cases hfm : d.messages.find?
      (schedPred cid (nextBirthdayYear c.bMonth c.bDay now₁)) with
  | some e =>
    rw [sched_eq_found hc hfm] at h1
    injection h1 with hdd hmm
    injection hmm with hmm
    subst hdd
    subst hmm
    apply sched_eq_found hc
    rw [hyear]
    exact hfm
  | none =>
    rw [sched_eq_create hc hfm] at h1
    injection h1 with hdd hmm
    injection hmm with hmm
    subst hdd
    subst hmm
    apply sched_eq_found
    · exact hc
    rw [hyear]
    have happ := find?_append_none
      (p := schedPred cid (nextBirthdayYear c.bMonth c.bDay now₁))
      [newSchedMsg c now₁ a₁ b₁] hfm
    have hmsgs : (addMessage d (newSchedMsg c now₁ a₁ b₁)).messages =
        d.messages ++ [newSchedMsg c now₁ a₁ b₁] := rfl
    rw [hmsgs, happ]
    have hcid := List.find?_some hc
    have hcid' : (c.id == cid) = true := hcid
    apply List.find?_cons_of_pos
    unfold schedPred newSchedMsg
    simp [hcid']

/-- C3 witness: contact with birthday 03-15, first call at 0001-01-01T00:00,
    second call one day later, well before the fire instant. -/
theorem c3_ensure_scheduled_idempotent_witness :
    scheduleMessagesForContact 0
      (addMessage ⟨[⟨0, "a", "p", 3, 15, 0⟩], []⟩
        (newSchedMsg ⟨0, "a", "p", 3, 15, 0⟩ ⟨1, 1, 1, 0⟩ 5 "b"))
      ⟨1, 1, 2, 0⟩ 6 "x" =
    (addMessage ⟨[⟨0, "a", "p", 3, 15, 0⟩], []⟩
        (newSchedMsg ⟨0, "a", "p", 3, 15, 0⟩ ⟨1, 1, 1, 0⟩ 5 "b"),
     some (newSchedMsg ⟨0, "a", "p", 3, 15, 0⟩ ⟨1, 1, 1, 0⟩ 5 "b")) :=
  c3_ensure_scheduled_idempotent 0 ⟨[⟨0, "a", "p", 3, 15, 0⟩], []⟩
    (addMessage ⟨[⟨0, "a", "p", 3, 15, 0⟩], []⟩
      (newSchedMsg ⟨0, "a", "p", 3, 15, 0⟩ ⟨1, 1, 1, 0⟩ 5 "b"))
    ⟨1, 1, 1, 0⟩ ⟨1, 1, 2, 0⟩ ⟨0, "a", "p", 3, 15, 0⟩ 5 6 "b" "x"
    (newSchedMsg ⟨0, "a", "p", 3, 15, 0⟩ ⟨1, 1, 1, 0⟩ 5 "b")
    (by decide) (by decide) (by decide) (by decide) (by decide) (by decide)
    (by decide)

lemma filter_eq_nil_of_all {α : Type} {p : α → Bool} (l : List α)
    (h : ∀ x ∈ l, p x = false) : l.filter p = [] := by
  induction l with
  | nil => rfl
  | cons a t ih =>
    rw [List.filter_cons, h a (by simp)]
    simpa using ih (fun x hx => h x (by simp [hx]))

lemma filter_updFirst_length_le {p : ScheduledMessage → Bool}
    {f : ScheduledMessage → ScheduledMessage} (i : Nat)
    (hf : ∀ m, p (f m) = false) (l : List ScheduledMessage) :
    ((updFirst i f l).filter p).length ≤ (l.filter p).length := by
  induction l with
  | nil => simp [updFirst]
  | cons a t ih =>
    unfold updFirst
    by_cases ha : (a.id == i) = true
    · rw [if_pos ha]
      rw [List.filter_cons, List.filter_cons, hf a]
      have hred : (if (false : Bool) = true then f a :: t.filter p
          else t.filter p) = t.filter p := rfl
      rw [hred]
      cases hpa : p a
      · rw [if_neg (by simp [hpa])]
      · rw [if_pos (by simp [hpa])]
        exact Nat.le_succ _
    · rw [if_neg ha]
      rw [List.filter_cons, List.filter_cons]
      cases hpa : p a
      · rw [if_neg (by simp [hpa]), if_neg (by simp [hpa])]
        exact ih
      · rw [if_pos (by simp [hpa]), if_pos (by simp [hpa])]
        exact Nat.succ_le_succ ih

lemma schedPred_false_of_status (m' : ScheduledMessage)
    (h : (m'.status == MessageStatus.scheduled) = false) (cid year : Nat) :
    schedPred cid year m' = false := by
  unfold schedPred
  rw [h]
  simp

lemma schedPred_setSending (m : ScheduledMessage) (cid year : Nat) :
    schedPred cid year (setSending m) = false :=
  schedPred_false_of_status (setSending m) rfl cid year

lemma schedPred_setSent (res : SmsResult) (t : Nat) (m : ScheduledMessage)
    (cid year : Nat) : schedPred cid year (setSent res t m) = false :=
  schedPred_false_of_status (setSent res t m) rfl cid year

lemma schedPred_setFailed (res : SmsResult) (m : ScheduledMessage)
    (cid year : Nat) : schedPred cid year (setFailed res m) = false :=
  schedPred_false_of_status (setFailed res m) rfl cid year

lemma schedPred_cancelUpdate (m : ScheduledMessage) (cid year : Nat) :
    schedPred cid year (cancelUpdate m) = false :=
  schedPred_false_of_status (cancelUpdate m) rfl cid year

lemma schedPred_deliverUpdate (t : Nat) (m : ScheduledMessage) (cid year : Nat) :
    schedPred cid year (deliverUpdate t m) = false :=
  schedPred_false_of_status (deliverUpdate t m) rfl cid year

lemma inv1_updateMessage {d : AppData} {i : Nat}
    {f : ScheduledMessage → ScheduledMessage}
    (hf : ∀ m cid year, schedPred cid year (f m) = false)
    (h : Inv1 d) : Inv1 (updateMessage d i f) := by
  intro cid year
  exact le_trans
    (filter_updFirst_length_le i (fun m => hf m cid year) d.messages)
    (h cid year)

lemma inv1_sched (cid : Nat) (d : AppData) (now : Civil) (a : Nat) (b : String)
    (h : Inv1 d) : Inv1 (scheduleMessagesForContact cid d now a b).1 := by
  cases hfc : d.contacts.find? (fun c => c.id == cid) with
  | none =>
    rw [sched_eq_no_contact hfc]
    exact h
  | some contact =>
    cases hfm : d.messages.find?
        (schedPred cid (nextBirthdayYear contact.bMonth contact.bDay now)) with
    | some e =>
      rw [sched_eq_found hfc hfm]
      exact h
    | none =>
      rw [sched_eq_create hfc hfm]
      intro cid' year'
      have hmsgs : (addMessage d (newSchedMsg contact now a b)).messages =
          d.messages ++ [newSchedMsg contact now a b] := rfl
      unfold schedCount
      rw [hmsgs, List.filter_append, List.length_append]
      cases hp : schedPred cid' year' (newSchedMsg contact now a b)
      · have h2 : ([newSchedMsg contact now a b].filter
            (schedPred cid' year')).length = 0 := by
          rw [List.filter_cons, hp]
          rfl
        have h1 := h cid' year'
        unfold schedCount at h1
        omega
      · have hcid : contact.id = cid := by
          have := List.find?_some hfc
          simpa using this
        have hp' := hp
        unfold schedPred newSchedMsg at hp'
        simp only [Bool.and_eq_true, beq_iff_eq] at hp'
        obtain ⟨⟨hc1, hc2⟩, _⟩ := hp'
        have hfilter : d.messages.filter (schedPred cid' year') = [] := by
          apply filter_eq_nil_of_all
          intro x hx
          have hnone := List.find?_eq_none.mp hfm x hx
          rw [← hc1, ← hc2, hcid]
          simpa using hnone
        rw [hfilter]
        have h2 : ([newSchedMsg contact now a b].filter
            (schedPred cid' year')).length ≤ 1 := by
          rw [List.filter_cons, hp]
          rfl
        simpa using h2

lemma inv1_afterSent {bundle : Option Gateway} {now : Civil} {fr : Fresh}
    {d : AppData} {msg : ScheduledMessage} (h : Inv1 d) :
    Inv1 (afterSent bundle now fr d msg) := by
  unfold afterSent
  exact inv1_updateMessage (schedPred_setSent _ _)
    (inv1_updateMessage schedPred_setSending h)

lemma inv1_processOne {bundle : Option Gateway} {now : Civil} {fr : Fresh}
    {s : Sys} {msg : ScheduledMessage} (h : Inv1 s.data) :
    Inv1 (processOne bundle now fr s msg).data := by
  unfold processOne
  by_cases hres : (sendBirthdaySms bundle msg.phone msg.messageBody fr.simStamp).success = true
  · rw [if_pos hres]
    by_cases hany : ((afterSent bundle now fr s.data msg).contacts.any
        (fun c => c.id == msg.contactId)) = true
    · rw [if_pos hany]
      exact inv1_sched _ _ _ _ _ (inv1_afterSent h)
    · rw [if_neg hany]
      exact inv1_afterSent h
  · rw [if_neg hres]
    exact inv1_updateMessage (schedPred_setFailed _)
      (inv1_updateMessage schedPred_setSending h)

lemma inv1_processDueGo (bundle : Option Gateway) (now : Civil)
    (env : Nat → Fresh) :
    ∀ (l : List ScheduledMessage) (s : Sys) (k : Nat), Inv1 s.data →
      Inv1 (processDueGo bundle now env l s k).data := by
  intro l
  induction l with
  | nil => intro s k h; exact h
  | cons a t ih =>
    intro s k h
    unfold processDueGo
    by_cases hd : dueSched now.secs a = true
    · rw [if_pos hd]
      exact ih _ _ (inv1_processOne h)
    · rw [if_neg hd]
      exact ih _ _ h

lemma inv1_scheduleAllGo (now : Civil) (env : Nat → Fresh) :
    ∀ (cs : List Contact) (d : AppData) (k : Nat), Inv1 d →
      Inv1 (scheduleAllGo now env cs d k) := by
  intro cs
  induction cs with
  | nil => intro d k h; exact h
  | cons c t ih =>
    intro d k h
    unfold scheduleAllGo
    exact ih _ _ (inv1_sched _ _ _ _ _ h)

lemma inv1_step (s : Sys) (op : Op) (hop : IsSchedulerOp op)
    (h : Inv1 s.data) : Inv1 (stepOp s op).data := by
  cases op with
  | opSchedule cid now fr => exact inv1_sched _ _ _ _ _ h
  | opScheduleAll now env => exact inv1_scheduleAllGo now env _ _ _ h
  | opDispatch bundle now env => exact inv1_processDueGo bundle now env _ _ _ h
  | opCancel mid => exact hop.elim
  | opRemoveContact cid => exact hop.elim
  | opDeliver mid t => exact hop.elim

/-- C1: any sequence of ensureScheduled, scheduleAll and dispatch-cycle
    operations preserves the at-most-one-scheduled-per-(subject, year)
    invariant; since the sequence is arbitrary, the invariant holds after
    every operation of the sequence. -/
theorem c1_unique_scheduled_invariant (s : Sys) (ops : List Op)
    (hops : ∀ op ∈ ops, IsSchedulerOp op) (h : Inv1 s.data) :
    Inv1 (runOps s ops).data := by
  induction ops generalizing s with
  | nil => exact h
  | cons op rest ih =>
    have hstep := inv1_step s op (hops op (by simp)) h
    exact ih (stepOp s op) (fun op' hop' => hops op' (by simp [hop'])) hstep

/-- C1 witness: one ensureScheduled then one dispatch cycle on a one-contact
    store, starting from the empty message store where the invariant holds. -/
theorem c1_unique_scheduled_invariant_witness :
    Inv1 (runOps ⟨⟨[⟨0, "a", "p", 3, 15, 0⟩], []⟩, []⟩
      [Op.opSchedule 0 ⟨1, 1, 1, 0⟩ ⟨5, "b", 0⟩,
       Op.opDispatch none ⟨1, 3, 20, 0⟩ (fun k => ⟨100 + k, "c", 1⟩)]).data :=
  c1_unique_scheduled_invariant ⟨⟨[⟨0, "a", "p", 3, 15, 0⟩], []⟩, []⟩
    [Op.opSchedule 0 ⟨1, 1, 1, 0⟩ ⟨5, "b", 0⟩,
     Op.opDispatch none ⟨1, 3, 20, 0⟩ (fun k => ⟨100 + k, "c", 1⟩)]
    (by intro op hop
        simp at hop
        rcases hop with rfl | rfl <;> trivial)
    (fun cid year => Nat.zero_le 1)

lemma processDueGo_skip (bundle : Option Gateway) (now : Civil)
    (env : Nat → Fresh) :
    ∀ (l : List ScheduledMessage) (s : Sys) (k : Nat),
      (∀ r ∈ l, dueSched now.secs r = false) →
      processDueGo bundle now env l s k = s := by
  intro l
  induction l with
  | nil => intro s k _; rfl
  | cons a t ih =>
    intro s k h
    unfold processDueGo
    rw [if_neg (by simp [h a (by simp)])]
    exact ih s k (fun r hr => h r (by simp [hr]))

lemma processDueGo_append (bundle : Option Gateway) (now : Civil)
    (env : Nat → Fresh) :
    ∀ (l₁ l₂ : List ScheduledMessage) (s : Sys) (k : Nat),
      (∀ r ∈ l₁, dueSched now.secs r = false) →
      processDueGo bundle now env (l₁ ++ l₂) s k =
        processDueGo bundle now env l₂ s k := by
  intro l₁
  induction l₁ with
  | nil => intro l₂ s k _; rfl
  | cons a t ih =>
    intro l₂ s k h
    rw [List.cons_append]
    conv_lhs => unfold processDueGo
    rw [if_neg (by simp [h a (by simp)])]
    exact ih l₂ s k (fun r hr => h r (by simp [hr]))

lemma updFirst_middle (i : Nat) (f : ScheduledMessage → ScheduledMessage)
    (l₁ l₂ : List ScheduledMessage) (m : ScheduledMessage)
    (h₁ : ∀ r ∈ l₁, (r.id == i) = false) (hm : (m.id == i) = true) :
    updFirst i f (l₁ ++ m :: l₂) = l₁ ++ f m :: l₂ := by
  induction l₁ with
  | nil =>
    rw [List.nil_append, List.nil_append]
    unfold updFirst
    rw [if_pos hm]
  | cons a t ih =>
    have hrec := ih (fun r hr => h₁ r (by simp [hr]))
    rw [List.cons_append]
    unfold updFirst
    rw [if_neg (by simp [h₁ a (by simp)]), hrec, List.cons_append]

lemma ids_ne_of_split {pre post : List ScheduledMessage} {m : ScheduledMessage}
    (hnd : ((pre ++ m :: post).map (fun x => x.id)).Nodup) :
    (∀ r ∈ pre, (r.id == m.id) = false) ∧
    (∀ r ∈ post, (r.id == m.id) = false) := by
  rw [List.map_append, List.map_cons, List.nodup_middle, List.nodup_cons] at hnd
  obtain ⟨hnotin, _⟩ := hnd
  constructor
  · intro r hr
    have hmem : r.id ∈ pre.map (fun x => x.id) := List.mem_map_of_mem _ hr
    have hne : r.id ≠ m.id := fun he =>
      hnotin (he ▸ List.mem_append_left _ hmem)
    exact beq_eq_false_iff_ne.mpr hne
  · intro r hr
    have hmem : r.id ∈ post.map (fun x => x.id) := List.mem_map_of_mem _ hr
    have hne : r.id ≠ m.id := fun he =>
      hnotin (he ▸ List.mem_append_right _ hmem)
    exact beq_eq_false_iff_ne.mpr hne

lemma setSent_setSending (res : SmsResult) (t : Nat) (m : ScheduledMessage) :
    setSent res t (setSending m) = setSent res t m := by
  cases m
  rfl

lemma setFailed_setSending (res : SmsResult) (m : ScheduledMessage) :
    setFailed res (setSending m) = setFailed res m := by
  cases m
  rfl

lemma afterSent_messages {bundle : Option Gateway} {now : Civil} {fr : Fresh}
    {d : AppData} {m : ScheduledMessage} {pre post : List ScheduledMessage}
    (hd : d.messages = pre ++ m :: post)
    (hpre : ∀ r ∈ pre, (r.id == m.id) = false) :
    (afterSent bundle now fr d m).messages =
      pre ++ setSent (sendBirthdaySms bundle m.phone m.messageBody fr.simStamp)
        now.secs m :: post := by
  show updFirst m.id
      (setSent (sendBirthdaySms bundle m.phone m.messageBody fr.simStamp) now.secs)
      (updFirst m.id setSending d.messages) = _
  rw [hd]
  rw [updFirst_middle _ _ _ _ _ hpre (by simp)]
  rw [updFirst_middle _ _ _ _ _ hpre (by simp [setSending])]
  rw [setSent_setSending]

lemma sched_mem_mono {cid : Nat} {d : AppData} {now : Civil} {a : Nat}
    {b : String} {m : ScheduledMessage} (hm : m ∈ d.messages) :
    m ∈ (scheduleMessagesForContact cid d now a b).1.messages := by
  cases hfc : d.contacts.find? (fun c => c.id == cid) with
  | none =>
    rw [sched_eq_no_contact hfc]
    exact hm
  | some contact =>
    cases hfm : d.messages.find?
        (schedPred cid (nextBirthdayYear contact.bMonth contact.bDay now)) with
    | some e =>
      rw [sched_eq_found hfc hfm]
      exact hm
    | none =>
      rw [sched_eq_create hfc hfm]
      exact List.mem_append_left _ hm

lemma processOne_success_eq {bundle : Option Gateway} {now : Civil} {fr : Fresh}
    (s : Sys) (m : ScheduledMessage)
    (hres : (sendBirthdaySms bundle m.phone m.messageBody fr.simStamp).success = true)
    (hany : s.data.contacts.any (fun x => x.id == m.contactId) = true) :
    processOne bundle now fr s m =
      { data := (scheduleMessagesForContact m.contactId
          (afterSent bundle now fr s.data m) now fr.newId fr.body).1,
        pending := s.pending ++ [m.id] } := by
  unfold processOne
  rw [if_pos hres]
  rw [if_pos (show ((afterSent bundle now fr s.data m).contacts.any
    (fun x => x.id == m.contactId)) = true from hany)]

lemma processOne_success_nocontact_eq {bundle : Option Gateway} {now : Civil}
    {fr : Fresh} (s : Sys) (m : ScheduledMessage)
    (hres : (sendBirthdaySms bundle m.phone m.messageBody fr.simStamp).success = true)
    (hany : s.data.contacts.any (fun x => x.id == m.contactId) = false) :
    processOne bundle now fr s m =
      { data := afterSent bundle now fr s.data m,
        pending := s.pending ++ [m.id] } := by
  unfold processOne
  rw [if_pos hres]
  rw [if_neg (show ¬((afterSent bundle now fr s.data m).contacts.any
      (fun x => x.id == m.contactId)) = true from by
    have h' : ((afterSent bundle now fr s.data m).contacts.any
        (fun x => x.id == m.contactId)) = false := hany
    simp [h'])]

lemma processOne_failed_eq {bundle : Option Gateway} {now : Civil} {fr : Fresh}
    (s : Sys) (m : ScheduledMessage)
    (hres : (sendBirthdaySms bundle m.phone m.messageBody fr.simStamp).success = false) :
    processOne bundle now fr s m =
      { data := updateMessage (updateMessage s.data m.id setSending) m.id
          (setFailed (sendBirthdaySms bundle m.phone m.messageBody fr.simStamp)),
        pending := s.pending } := by
  unfold processOne
  rw [if_neg (by simp [hres])]

/-- When the store snapshot has exactly one due scheduled message, the
    dispatch cycle is that message's processing alone. -/
lemma processDue_single {bundle : Option Gateway} {now : Civil}
    {env : Nat → Fresh} (s : Sys) {pre post : List ScheduledMessage}
    {m : ScheduledMessage}
    (hsplit : s.data.messages = pre ++ m :: post)
    (hpre : ∀ r ∈ pre, dueSched now.secs r = false)
    (hpost : ∀ r ∈ post, dueSched now.secs r = false)
    (hdue : dueSched now.secs m = true) :
    processDueMessages bundle now env s = processOne bundle now (env 0) s m := by
  unfold processDueMessages
  rw [hsplit]
  rw [processDueGo_append bundle now env pre (m :: post) _ 0 hpre]
  unfold processDueGo
  rw [if_pos hdue]
  exact processDueGo_skip bundle now env post _ 1 hpost

lemma sim_sid_ne_empty (st : Nat) : ("SIM_" ++ toString st) ≠ "" := by
  intro h
  have hlen := congrArg String.length h
  rw [String.length_append] at hlen
  have h4 : ("SIM_" : String).length = 4 := rfl
  have h0 : ("" : String).length = 0 := rfl
  omega

/-- C6: a dispatch cycle over a store with exactly one due scheduled
    occurrence whose subject still exists, when the gateway send succeeds
    with provider id p, ends with that occurrence sent, p recorded as its
    non-empty provider id, a sent timestamp recorded, and a scheduled
    occurrence existing for the subject's next recurrence year. -/
theorem c6_dispatch_success (s : Sys) (bundle : Option Gateway) (now : Civil)
    (env : Nat → Fresh) (pre post : List ScheduledMessage)
    (m : ScheduledMessage) (c : Contact) (p : String)
    (hsplit : s.data.messages = pre ++ m :: post)
    (hpre : ∀ r ∈ pre, dueSched now.secs r = false)
    (hpost : ∀ r ∈ post, dueSched now.secs r = false)
    (hdue : dueSched now.secs m = true)
    (hnd : (msgIds s.data).Nodup)
    (hc : s.data.contacts.find? (fun x => x.id == m.contactId) = some c)
    (hgs : (sendBirthdaySms bundle m.phone m.messageBody (env 0).simStamp).success = true)
    (hgn : (sendBirthdaySms bundle m.phone m.messageBody (env 0).simStamp).notificationSid = some p)
    (hp : p ≠ "") :
    (∃ m' ∈ (processDueMessages bundle now env s).data.messages,
       m'.id = m.id ∧ m'.status = MessageStatus.sent ∧
       m'.notificationSid = some p ∧ p ≠ "" ∧ m'.sentAt = some now.secs)
    ∧ (∃ mn ∈ (processDueMessages bundle now env s).data.messages,
        mn.status = MessageStatus.scheduled ∧ mn.contactId = m.contactId ∧
        mn.year = nextBirthdayYear c.bMonth c.bDay now) := by
  have hnd' : ((pre ++ m :: post).map (fun x => x.id)).Nodup := by
    have heq : msgIds s.data = (pre ++ m :: post).map (fun x => x.id) := by
      unfold msgIds
      rw [hsplit]
    rw [heq] at hnd
    exact hnd
  obtain ⟨hpreid, hpostid⟩ := ids_ne_of_split hnd'
  have hcmem := List.mem_of_find?_eq_some hc
  have hcpred0 := List.find?_some hc
  have hcpred : (c.id == m.contactId) = true := hcpred0
  have hany : s.data.contacts.any (fun x => x.id == m.contactId) = true :=
    List.any_eq_true.mpr ⟨c, hcmem, hcpred⟩
  rw [processDue_single s hsplit hpre hpost hdue,
      processOne_success_eq s m hgs hany]
  have hAmsgs := @afterSent_messages bundle now (env 0) s.data m pre post
    hsplit hpreid
  constructor
  · refine ⟨setSent (sendBirthdaySms bundle m.phone m.messageBody
      (env 0).simStamp) now.secs m, ?_, rfl, rfl, hgn, hp, rfl⟩
    show setSent (sendBirthdaySms bundle m.phone m.messageBody (env 0).simStamp)
        now.secs m ∈
      (scheduleMessagesForContact m.contactId
        (afterSent bundle now (env 0) s.data m) now (env 0).newId
        (env 0).body).1.messages
    apply sched_mem_mono
    rw [hAmsgs]
    exact List.mem_append_right _ (List.mem_cons_self _ _)
  · have hc2 : (afterSent bundle now (env 0) s.data m).contacts.find?
        (fun x => x.id == m.contactId) = some c := hc
    cases hfm2 : (afterSent bundle now (env 0) s.data m).messages.find?
        (schedPred m.contactId (nextBirthdayYear c.bMonth c.bDay now)) with
    | some e =>
      rw [sched_eq_found hc2 hfm2]
      have hprops := List.find?_some hfm2
      unfold schedPred at hprops
      simp only [Bool.and_eq_true, beq_iff_eq] at hprops
      obtain ⟨⟨hcid, hyr⟩, hst⟩ := hprops
      exact ⟨e, List.mem_of_find?_eq_some hfm2, hst, hcid, hyr⟩
    | none =>
      rw [sched_eq_create hc2 hfm2]
      refine ⟨newSchedMsg c now (env 0).newId (env 0).body, ?_, rfl, ?_, rfl⟩
      · exact List.mem_append_right _ (List.mem_singleton_self _)
      · have := List.find?_some hc
        simpa using this

/-- C7: a dispatch cycle over a store with exactly one due scheduled
    occurrence, when the gateway fails with error text invalid destination,
    ends with only that occurrence changed, to failed with the error text
    recorded verbatim; no other record changes, nothing is created (so no
    new occurrence for the subject and no retry), and no timer is armed. -/
theorem c7_dispatch_failure (s : Sys) (bundle : Option Gateway) (now : Civil)
    (env : Nat → Fresh) (pre post : List ScheduledMessage)
    (m : ScheduledMessage)
    (hsplit : s.data.messages = pre ++ m :: post)
    (hpre : ∀ r ∈ pre, dueSched now.secs r = false)
    (hpost : ∀ r ∈ post, dueSched now.secs r = false)
    (hdue : dueSched now.secs m = true)
    (hnd : (msgIds s.data).Nodup)
    (hgs : (sendBirthdaySms bundle m.phone m.messageBody (env 0).simStamp).success = false)
    (hge : (sendBirthdaySms bundle m.phone m.messageBody (env 0).simStamp).error =
      some "invalid destination") :
    (processDueMessages bundle now env s).data.messages =
      pre ++ { m with status := MessageStatus.failed, errorMessage := some "invalid destination" } :: post
    ∧ (processDueMessages bundle now env s).data.contacts = s.data.contacts
    ∧ (processDueMessages bundle now env s).pending = s.pending := by
  have hnd' : ((pre ++ m :: post).map (fun x => x.id)).Nodup := by
    have heq : msgIds s.data = (pre ++ m :: post).map (fun x => x.id) := by
      unfold msgIds
      rw [hsplit]
    rw [heq] at hnd
    exact hnd
  obtain ⟨hpreid, hpostid⟩ := ids_ne_of_split hnd'
  rw [processDue_single s hsplit hpre hpost hdue,
      processOne_failed_eq s m hgs]
  refine ⟨?_, rfl, rfl⟩
  show updFirst m.id
      (setFailed (sendBirthdaySms bundle m.phone m.messageBody (env 0).simStamp))
      (updFirst m.id setSending s.data.messages) = _
  rw [hsplit]
  rw [updFirst_middle _ _ _ _ _ hpreid (by simp)]
  rw [updFirst_middle _ _ _ _ _ hpreid (by simp [setSending])]
  rw [setFailed_setSending]
  have hfm : setFailed (sendBirthdaySms bundle m.phone m.messageBody
      (env 0).simStamp) m =
      { m with status := MessageStatus.failed, errorMessage := some "invalid destination" } := by
    unfold setFailed
    rw [hge]
  rw [hfm]

/-- C9: with no client bundle, sendBirthdaySms simulates success with the
    non-empty placeholder sid SIM_<stamp>, and a due occurrence processed in
    this degraded mode ends the cycle as sent, not failed. -/
theorem c9_gateway_unavailable_simulates_success (s : Sys) (now : Civil)
    (env : Nat → Fresh) (pre post : List ScheduledMessage)
    (m : ScheduledMessage)
    (hsplit : s.data.messages = pre ++ m :: post)
    (hpre : ∀ r ∈ pre, dueSched now.secs r = false)
    (hpost : ∀ r ∈ post, dueSched now.secs r = false)
    (hdue : dueSched now.secs m = true)
    (hnd : (msgIds s.data).Nodup) :
    (∀ (ph b : String) (st : Nat),
      sendBirthdaySms none ph b st =
        { success := true, notificationSid := some ("SIM_" ++ toString st),
          error := none } ∧ ("SIM_" ++ toString st) ≠ "")
    ∧ (∃ m' ∈ (processDueMessages none now env s).data.messages,
        m'.id = m.id ∧ m'.status = MessageStatus.sent ∧
        m'.status ≠ MessageStatus.failed ∧
        m'.notificationSid = some ("SIM_" ++ toString (env 0).simStamp) ∧
        ("SIM_" ++ toString (env 0).simStamp) ≠ "") := by
  have hnd' : ((pre ++ m :: post).map (fun x => x.id)).Nodup := by
    have heq : msgIds s.data = (pre ++ m :: post).map (fun x => x.id) := by
      unfold msgIds
      rw [hsplit]
    rw [heq] at hnd
    exact hnd
  obtain ⟨hpreid, hpostid⟩ := ids_ne_of_split hnd'
  constructor
  · exact fun ph b st => ⟨rfl, sim_sid_ne_empty st⟩
  · have hAmsgs := @afterSent_messages none now (env 0) s.data m pre post
      hsplit hpreid
    rw [processDue_single s hsplit hpre hpost hdue]
    by_cases hany : s.data.contacts.any (fun x => x.id == m.contactId) = true
    · rw [@processOne_success_eq none now (env 0) s m rfl hany]
      refine ⟨setSent (sendBirthdaySms none m.phone m.messageBody
        (env 0).simStamp) now.secs m, ?_, rfl, rfl,
        (show MessageStatus.sent ≠ MessageStatus.failed by decide), rfl,
        sim_sid_ne_empty _⟩
      show setSent (sendBirthdaySms none m.phone m.messageBody (env 0).simStamp)
          now.secs m ∈
        (scheduleMessagesForContact m.contactId
          (afterSent none now (env 0) s.data m) now (env 0).newId
          (env 0).body).1.messages
      apply sched_mem_mono
      rw [hAmsgs]
      exact List.mem_append_right _ (List.mem_cons_self _ _)
    · rw [@processOne_success_nocontact_eq none now (env 0) s m rfl
        (Bool.eq_false_iff.mpr hany)]
      refine ⟨setSent (sendBirthdaySms none m.phone m.messageBody
        (env 0).simStamp) now.secs m, ?_, rfl, rfl,
        (show MessageStatus.sent ≠ MessageStatus.failed by decide), rfl,
        sim_sid_ne_empty _⟩
      show setSent (sendBirthdaySms none m.phone m.messageBody (env 0).simStamp)
          now.secs m ∈ (afterSent none now (env 0) s.data m).messages
      rw [hAmsgs]
      exact List.mem_append_right _ (List.mem_cons_self _ _)

/-- C6 witness: single due message for contact 7, gateway returning success
    with sid SID1. -/
theorem c6_dispatch_success_witness :
    (∃ m' ∈ (processDueMessages (some (fun _ _ => ⟨true, some "SID1", none⟩))
        ⟨1, 1, 1, 0⟩ (fun k => ⟨200 + k, "c", 3⟩)
        ⟨⟨[⟨7, "a", "p", 3, 15, 0⟩],
          [⟨100, 7, "a", "p", "hello", 0, MessageStatus.scheduled,
            none, none, none, none, 0, 1⟩]⟩, []⟩).data.messages,
       m'.id = 100 ∧ m'.status = MessageStatus.sent ∧
       m'.notificationSid = some "SID1" ∧ "SID1" ≠ "" ∧
       m'.sentAt = some (Civil.secs ⟨1, 1, 1, 0⟩))
    ∧ (∃ mn ∈ (processDueMessages (some (fun _ _ => ⟨true, some "SID1", none⟩))
        ⟨1, 1, 1, 0⟩ (fun k => ⟨200 + k, "c", 3⟩)
        ⟨⟨[⟨7, "a", "p", 3, 15, 0⟩],
          [⟨100, 7, "a", "p", "hello", 0, MessageStatus.scheduled,
            none, none, none, none, 0, 1⟩]⟩, []⟩).data.messages,
        mn.status = MessageStatus.scheduled ∧ mn.contactId = 7 ∧
        mn.year = nextBirthdayYear 3 15 ⟨1, 1, 1, 0⟩) :=
  c6_dispatch_success
    ⟨⟨[⟨7, "a", "p", 3, 15, 0⟩],
      [⟨100, 7, "a", "p", "hello", 0, MessageStatus.scheduled,
        none, none, none, none, 0, 1⟩]⟩, []⟩
    (some (fun _ _ => ⟨true, some "SID1", none⟩)) ⟨1, 1, 1, 0⟩
    (fun k => ⟨200 + k, "c", 3⟩) [] []
    ⟨100, 7, "a", "p", "hello", 0, MessageStatus.scheduled,
      none, none, none, none, 0, 1⟩
    ⟨7, "a", "p", 3, 15, 0⟩ "SID1"
    rfl (by simp) (by simp) (by decide) (by decide) (by decide)
    rfl rfl (by decide)

/-- C7 witness: single due message for contact 7, gateway failing with the
    text invalid destination. -/
theorem c7_dispatch_failure_witness :
    (processDueMessages (some (fun _ _ => ⟨false, none, some "invalid destination"⟩))
        ⟨1, 1, 1, 0⟩ (fun k => ⟨200 + k, "c", 3⟩)
        ⟨⟨[⟨7, "a", "p", 3, 15, 0⟩],
          [⟨100, 7, "a", "p", "hello", 0, MessageStatus.scheduled,
            none, none, none, none, 0, 1⟩]⟩, []⟩).data.messages =
      [] ++ ⟨100, 7, "a", "p", "hello", 0, MessageStatus.failed,
        none, some "invalid destination", none, none, 0, 1⟩ :: []
    ∧ (processDueMessages (some (fun _ _ => ⟨false, none, some "invalid destination"⟩))
        ⟨1, 1, 1, 0⟩ (fun k => ⟨200 + k, "c", 3⟩)
        ⟨⟨[⟨7, "a", "p", 3, 15, 0⟩],
          [⟨100, 7, "a", "p", "hello", 0, MessageStatus.scheduled,
            none, none, none, none, 0, 1⟩]⟩, []⟩).data.contacts =
      [⟨7, "a", "p", 3, 15, 0⟩]
    ∧ (processDueMessages (some (fun _ _ => ⟨false, none, some "invalid destination"⟩))
        ⟨1, 1, 1, 0⟩ (fun k => ⟨200 + k, "c", 3⟩)
        ⟨⟨[⟨7, "a", "p", 3, 15, 0⟩],
          [⟨100, 7, "a", "p", "hello", 0, MessageStatus.scheduled,
            none, none, none, none, 0, 1⟩]⟩, []⟩).pending = [] :=
  c7_dispatch_failure
    ⟨⟨[⟨7, "a", "p", 3, 15, 0⟩],
      [⟨100, 7, "a", "p", "hello", 0, MessageStatus.scheduled,
        none, none, none, none, 0, 1⟩]⟩, []⟩
    (some (fun _ _ => ⟨false, none, some "invalid destination"⟩)) ⟨1, 1, 1, 0⟩
    (fun k => ⟨200 + k, "c", 3⟩) [] []
    ⟨100, 7, "a", "p", "hello", 0, MessageStatus.scheduled,
      none, none, none, none, 0, 1⟩
    rfl (by simp) (by simp) (by decide) (by decide)
    rfl rfl

/-- C9 witness: single due message, no client bundle configured. -/
theorem c9_gateway_unavailable_simulates_success_witness :
    (∀ (ph b : String) (st : Nat),
      sendBirthdaySms none ph b st =
        { success := true, notificationSid := some ("SIM_" ++ toString st),
          error := none } ∧ ("SIM_" ++ toString st) ≠ "")
    ∧ (∃ m' ∈ (processDueMessages none ⟨1, 1, 1, 0⟩
        (fun k => ⟨200 + k, "c", 3⟩)
        ⟨⟨[⟨7, "a", "p", 3, 15, 0⟩],
          [⟨100, 7, "a", "p", "hello", 0, MessageStatus.scheduled,
            none, none, none, none, 0, 1⟩]⟩, []⟩).data.messages,
        m'.id = 100 ∧ m'.status = MessageStatus.sent ∧
        m'.status ≠ MessageStatus.failed ∧
        m'.notificationSid = some ("SIM_" ++ toString 3) ∧
        ("SIM_" ++ toString 3) ≠ "") :=
  c9_gateway_unavailable_simulates_success
    ⟨⟨[⟨7, "a", "p", 3, 15, 0⟩],
      [⟨100, 7, "a", "p", "hello", 0, MessageStatus.scheduled,
        none, none, none, none, 0, 1⟩]⟩, []⟩
    ⟨1, 1, 1, 0⟩ (fun k => ⟨200 + k, "c", 3⟩) [] []
    ⟨100, 7, "a", "p", "hello", 0, MessageStatus.scheduled,
      none, none, none, none, 0, 1⟩
    rfl (by simp) (by simp) (by decide) (by decide)

lemma updFirst_map_id {f : ScheduledMessage → ScheduledMessage} (i : Nat)
    (hf : ∀ m, (f m).id = m.id) :
    ∀ l : List ScheduledMessage,
      (updFirst i f l).map (fun x => x.id) = l.map (fun x => x.id) := by
  intro l
  induction l with
  | nil => rfl
  | cons a t ih =>
    unfold updFirst
    by_cases ha : (a.id == i) = true
    · rw [if_pos ha, List.map_cons, List.map_cons, hf a]
    · rw [if_neg ha, List.map_cons, List.map_cons, ih]

lemma updFirst_eq_map {f : ScheduledMessage → ScheduledMessage} (i : Nat) :
    ∀ l : List ScheduledMessage, ((l.map (fun x => x.id)).Nodup) →
      updFirst i f l = l.map (fun x => if x.id == i then f x else x) := by
  intro l
  induction l with
  | nil => intro _; rfl
  | cons a t ih =>
    intro hnd
    rw [List.map_cons, List.nodup_cons] at hnd
    unfold updFirst
    rw [List.map_cons]
    by_cases ha : (a.id == i) = true
    · rw [if_pos ha, if_pos ha]
      have hid : a.id = i := by simpa using ha
      have htail : t.map (fun x => if x.id == i then f x else x) = t := by
        have hpt : ∀ x ∈ t, (if x.id == i then f x else x) = x := by
          intro x hx
          have hxne : x.id ≠ a.id := fun he =>
            hnd.1 (he ▸ List.mem_map_of_mem _ hx)
          rw [if_neg (by simp [hid ▸ hxne])]
        rw [List.map_congr_left hpt]
        simp
      rw [htail]
    · rw [if_neg ha, if_neg ha, ih hnd.2]

lemma mem_updFirst_of_ne {f : ScheduledMessage → ScheduledMessage} {i : Nat}
    {m : ScheduledMessage} :
    ∀ {l : List ScheduledMessage}, m ∈ l → (m.id == i) = false →
      m ∈ updFirst i f l := by
  intro l
  induction l with
  | nil => intro hm _; cases hm
  | cons a t ih =>
    intro hm hne
    unfold updFirst
    by_cases ha : (a.id == i) = true
    · rw [if_pos ha]
      rcases List.mem_cons.mp hm with rfl | hm'
      · rw [ha] at hne
        exact Bool.noConfusion hne
      · exact List.mem_cons_of_mem _ hm'
    · rw [if_neg ha]
      rcases List.mem_cons.mp hm with rfl | hm'
      · exact List.mem_cons_self _ _
      · exact List.mem_cons_of_mem _ (ih hm' hne)

lemma nodup_ids_inj {l : List ScheduledMessage}
    (hnd : (l.map (fun x => x.id)).Nodup) {a b : ScheduledMessage}
    (ha : a ∈ l) (hb : b ∈ l) (hid : a.id = b.id) : a = b := by
  induction l with
  | nil => cases ha
  | cons x t ih =>
    rw [List.map_cons, List.nodup_cons] at hnd
    rcases List.mem_cons.mp ha with rfl | ha'
    · rcases List.mem_cons.mp hb with rfl | hb'
      · rfl
      · exact absurd (hid ▸ List.mem_map_of_mem _ hb') hnd.1
    · rcases List.mem_cons.mp hb with rfl | hb'
      · exact absurd (hid ▸ List.mem_map_of_mem _ ha') hnd.1
      · exact ih hnd.2 ha' hb'

lemma nodup_append_singleton {l : List Nat} {a : Nat} (hnd : l.Nodup)
    (ha : a ∉ l) : (l ++ [a]).Nodup := by
  rw [List.nodup_append]
  refine ⟨hnd, List.nodup_singleton a, ?_⟩
  intro x hx hx'
  rw [List.mem_singleton] at hx'
  subst hx'
  exact ha hx

lemma msgIds_addMessage (d : AppData) (m : ScheduledMessage) :
    msgIds (addMessage d m) = msgIds d ++ [m.id] := by
  unfold msgIds addMessage
  rw [List.map_append]
  rfl

lemma sched_ids_cases (cid : Nat) (d : AppData) (now : Civil) (a : Nat)
    (b : String) :
    msgIds (scheduleMessagesForContact cid d now a b).1 = msgIds d ∨
    msgIds (scheduleMessagesForContact cid d now a b).1 = msgIds d ++ [a] := by
  cases hfc : d.contacts.find? (fun c => c.id == cid) with
  | none =>
    rw [sched_eq_no_contact hfc]
    exact Or.inl rfl
  | some contact =>
    cases hfm : d.messages.find?
        (schedPred cid (nextBirthdayYear contact.bMonth contact.bDay now)) with
    | some e =>
      rw [sched_eq_found hfc hfm]
      exact Or.inl rfl
    | none =>
      rw [sched_eq_create hfc hfm]
      exact Or.inr (msgIds_addMessage d (newSchedMsg contact now a b))

lemma term_of_statusStep {a b : MessageStatus} (ha : termStatus a)
    (h : statusStep a b) : termStatus b := by
  rcases h with rfl | ⟨h1, rfl⟩
  · exact ha
  · exact Or.inr (Or.inl rfl)

lemma statusStep_trans {a b c : MessageStatus} (h1 : statusStep a b)
    (h2 : statusStep b c) : statusStep a c := by
  rcases h2 with rfl | ⟨hb, rfl⟩
  · exact h1
  · rcases h1 with rfl | ⟨ha, hb2⟩
    · exact Or.inr ⟨hb, rfl⟩
    · rw [hb2] at hb
      exact absurd hb (by decide)

lemma termStatus_ne_scheduled {st : MessageStatus} (h : termStatus st) :
    st ≠ MessageStatus.scheduled := by
  rcases h with rfl | rfl | rfl | rfl <;> decide

lemma afterSent_ids {bundle : Option Gateway} {now : Civil} {fr : Fresh}
    (d : AppData) (msg : ScheduledMessage) :
    msgIds (afterSent bundle now fr d msg) = msgIds d := by
  show (updFirst msg.id
      (setSent (sendBirthdaySms bundle msg.phone msg.messageBody fr.simStamp) now.secs)
      (updFirst msg.id setSending d.messages)).map (fun x => x.id) = _
  rw [updFirst_map_id
        (f := setSent (sendBirthdaySms bundle msg.phone msg.messageBody fr.simStamp) now.secs)
        msg.id (fun m => rfl),
      updFirst_map_id (f := setSending) msg.id (fun m => rfl)]
  rfl

lemma afterSent_mem_of_ne {bundle : Option Gateway} {now : Civil} {fr : Fresh}
    {d : AppData} {msg r : ScheduledMessage}
    (hr : r ∈ d.messages) (hne : (r.id == msg.id) = false) :
    r ∈ (afterSent bundle now fr d msg).messages :=
  mem_updFirst_of_ne (mem_updFirst_of_ne hr hne) hne

lemma afterSent_mem_self {bundle : Option Gateway} {now : Civil} {fr : Fresh}
    {d : AppData} {msg : ScheduledMessage}
    (hmem : msg ∈ d.messages) (hnd : (msgIds d).Nodup) :
    setSent (sendBirthdaySms bundle msg.phone msg.messageBody fr.simStamp)
      now.secs msg ∈ (afterSent bundle now fr d msg).messages := by
  have hnd0 : (d.messages.map (fun x => x.id)).Nodup := hnd
  have hnd1 : ((updFirst msg.id setSending d.messages).map
      (fun x => x.id)).Nodup := by
    rw [updFirst_map_id (f := setSending) msg.id (fun m => rfl)]
    exact hnd0
  have h1 : setSending msg ∈ updFirst msg.id setSending d.messages := by
    rw [updFirst_eq_map msg.id d.messages hnd0]
    have h0 := List.mem_map_of_mem
      (fun x => if x.id == msg.id then setSending x else x) hmem
    simpa using h0
  have h2 : setSent (sendBirthdaySms bundle msg.phone msg.messageBody fr.simStamp)
      now.secs (setSending msg) ∈
      updFirst msg.id
        (setSent (sendBirthdaySms bundle msg.phone msg.messageBody fr.simStamp)
          now.secs)
        (updFirst msg.id setSending d.messages) := by
    rw [updFirst_eq_map msg.id _ hnd1]
    have h0 := List.mem_map_of_mem
      (fun x => if x.id == msg.id then
        setSent (sendBirthdaySms bundle msg.phone msg.messageBody fr.simStamp)
          now.secs x else x) h1
    simpa [setSending] using h0
  rw [setSent_setSending] at h2
  exact h2

lemma processOne_ids_cases {bundle : Option Gateway} {now : Civil} {fr : Fresh}
    (s : Sys) (msg : ScheduledMessage) :
    msgIds (processOne bundle now fr s msg).data = msgIds s.data ∨
    msgIds (processOne bundle now fr s msg).data = msgIds s.data ++ [fr.newId] := by
  unfold processOne
  by_cases hres : (sendBirthdaySms bundle msg.phone msg.messageBody
      fr.simStamp).success = true
  · rw [if_pos hres]
    by_cases hany : ((afterSent bundle now fr s.data msg).contacts.any
        (fun c => c.id == msg.contactId)) = true
    · rw [if_pos hany]
      rcases sched_ids_cases msg.contactId (afterSent bundle now fr s.data msg)
          now fr.newId fr.body with hcase | hcase
      · left
        exact hcase.trans (@afterSent_ids bundle now fr s.data msg)
      · right
        rw [@afterSent_ids bundle now fr s.data msg] at hcase
        exact hcase
    · rw [if_neg hany]
      left
      exact @afterSent_ids bundle now fr s.data msg
  · rw [if_neg hres]
    left
    show (updFirst msg.id
        (setFailed (sendBirthdaySms bundle msg.phone msg.messageBody fr.simStamp))
        (updFirst msg.id setSending s.data.messages)).map (fun x => x.id) = _
    rw [updFirst_map_id
          (f := setFailed (sendBirthdaySms bundle msg.phone msg.messageBody fr.simStamp))
          msg.id (fun m => rfl),
        updFirst_map_id (f := setSending) msg.id (fun m => rfl)]
    rfl

lemma processOne_mem_of_ne {bundle : Option Gateway} {now : Civil} {fr : Fresh}
    {s : Sys} {msg r : ScheduledMessage} (hr : r ∈ s.data.messages)
    (hne : (r.id == msg.id) = false) :
    r ∈ (processOne bundle now fr s msg).data.messages := by
  unfold processOne
  by_cases hres : (sendBirthdaySms bundle msg.phone msg.messageBody
      fr.simStamp).success = true
  · rw [if_pos hres]
    by_cases hany : ((afterSent bundle now fr s.data msg).contacts.any
        (fun c => c.id == msg.contactId)) = true
    · rw [if_pos hany]
      exact sched_mem_mono (afterSent_mem_of_ne hr hne)
    · rw [if_neg hany]
      exact afterSent_mem_of_ne hr hne
  · rw [if_neg hres]
    exact mem_updFirst_of_ne (mem_updFirst_of_ne hr hne) hne

lemma processOne_pendok {bundle : Option Gateway} {now : Civil} {fr : Fresh}
    {s : Sys} {msg : ScheduledMessage}
    (hnd : (msgIds s.data).Nodup) (hpend : PendOk s)
    (hmem : msg ∈ s.data.messages)
    (hstat : msg.status = MessageStatus.scheduled) :
    PendOk (processOne bundle now fr s msg) := by
  have hne_of : ∀ mp : ScheduledMessage, mp ∈ s.data.messages →
      (mp.status = MessageStatus.sent ∨ mp.status = MessageStatus.delivered) →
      (mp.id == msg.id) = false := by
    intro mp hmp hmpst
    apply beq_eq_false_iff_ne.mpr
    intro he
    have heq : mp = msg := nodup_ids_inj hnd hmp hmem he
    rw [heq, hstat] at hmpst
    rcases hmpst with h | h <;> exact MessageStatus.noConfusion h
  unfold processOne
  by_cases hres : (sendBirthdaySms bundle msg.phone msg.messageBody
      fr.simStamp).success = true
  · rw [if_pos hres]
    by_cases hany : ((afterSent bundle now fr s.data msg).contacts.any
        (fun c => c.id == msg.contactId)) = true
    · rw [if_pos hany]
      intro mid hmid
      have hmid' : mid ∈ s.pending ++ [msg.id] := hmid
      rcases List.mem_append.mp hmid' with hold | hnew
      · obtain ⟨mp, hmp, hmpid, hmpst⟩ := hpend mid hold
        exact ⟨mp, sched_mem_mono (afterSent_mem_of_ne hmp
          (hne_of mp hmp hmpst)), hmpid, hmpst⟩
      · rw [List.mem_singleton] at hnew
        subst hnew
        exact ⟨setSent (sendBirthdaySms bundle msg.phone msg.messageBody
          fr.simStamp) now.secs msg,
          sched_mem_mono (afterSent_mem_self hmem hnd), rfl, Or.inl rfl⟩
    · rw [if_neg hany]
      intro mid hmid
      have hmid' : mid ∈ s.pending ++ [msg.id] := hmid
      rcases List.mem_append.mp hmid' with hold | hnew
      · obtain ⟨mp, hmp, hmpid, hmpst⟩ := hpend mid hold
        exact ⟨mp, afterSent_mem_of_ne hmp (hne_of mp hmp hmpst), hmpid, hmpst⟩
      · rw [List.mem_singleton] at hnew
        subst hnew
        exact ⟨setSent (sendBirthdaySms bundle msg.phone msg.messageBody
          fr.simStamp) now.secs msg,
          afterSent_mem_self hmem hnd, rfl, Or.inl rfl⟩
  · rw [if_neg hres]
    intro mid hmid
    have hmid' : mid ∈ s.pending := hmid
    obtain ⟨mp, hmp, hmpid, hmpst⟩ := hpend mid hmid'
    exact ⟨mp, mem_updFirst_of_ne (mem_updFirst_of_ne hmp
      (hne_of mp hmp hmpst)) (hne_of mp hmp hmpst), hmpid, hmpst⟩

lemma processDueGo_spec (bundle : Option Gateway) (now : Civil)
    (env : Nat → Fresh)
    (hdist : ∀ i j, i ≠ j → (env i).newId ≠ (env j).newId) :
    ∀ (rem : List ScheduledMessage) (s : Sys) (k : Nat),
      (msgIds s.data).Nodup → PendOk s →
      (∀ r ∈ rem, r ∈ s.data.messages) →
      ((rem.map (fun x => x.id)).Nodup) →
      (∀ j, k ≤ j → (env j).newId ∉ msgIds s.data) →
      ((msgIds (processDueGo bundle now env rem s k).data).Nodup ∧
       PendOk (processDueGo bundle now env rem s k) ∧
       (∀ m ∈ s.data.messages, termStatus m.status →
         m ∈ (processDueGo bundle now env rem s k).data.messages)) := by
  intro rem
  induction rem with
  | nil =>
    intro s k hnd hpend _ _ _
    exact ⟨hnd, hpend, fun m hm _ => hm⟩
  | cons msg rest ih =>
    intro s k hnd hpend hrem hremnd hfresh
    have hstep : processDueGo bundle now env (msg :: rest) s k =
        if dueSched now.secs msg then
          processDueGo bundle now env rest (processOne bundle now (env k) s msg)
            (k + 1)
        else processDueGo bundle now env rest s k := rfl
    rw [List.map_cons, List.nodup_cons] at hremnd
    by_cases hd : dueSched now.secs msg = true
    · rw [hstep, if_pos hd]
      have hmsgmem : msg ∈ s.data.messages := hrem msg (List.mem_cons_self _ _)
      have hmsgstat : msg.status = MessageStatus.scheduled := by
        unfold dueSched at hd
        rw [Bool.and_eq_true] at hd
        simpa using hd.1
      have hids := @processOne_ids_cases bundle now (env k) s msg
      have hnd1 : (msgIds (processOne bundle now (env k) s msg).data).Nodup := by
        rcases hids with hc | hc
        · rw [hc]; exact hnd
        · rw [hc]
          exact nodup_append_singleton hnd (hfresh k (Nat.le_refl k))
      have hpend1 : PendOk (processOne bundle now (env k) s msg) :=
        processOne_pendok hnd hpend hmsgmem hmsgstat
      have hrem1 : ∀ r ∈ rest,
          r ∈ (processOne bundle now (env k) s msg).data.messages := by
        intro r hr
        have hrne : (r.id == msg.id) = false := by
          apply beq_eq_false_iff_ne.mpr
          intro he
          exact hremnd.1 (he ▸ List.mem_map_of_mem _ hr)
        exact processOne_mem_of_ne (hrem r (List.mem_cons_of_mem _ hr)) hrne
      have hfresh1 : ∀ j, k + 1 ≤ j →
          (env j).newId ∉ msgIds (processOne bundle now (env k) s msg).data := by
        intro j hj
        rcases hids with hc | hc
        · rw [hc]
          exact hfresh j (by omega)
        · rw [hc]
          intro hmem'
          rcases List.mem_append.mp hmem' with h | h
          · exact hfresh j (by omega) h
          · rw [List.mem_singleton] at h
            exact hdist j k (by omega) h
      obtain ⟨ha, hb, hc'⟩ := ih (processOne bundle now (env k) s msg) (k + 1)
        hnd1 hpend1 hrem1 hremnd.2 hfresh1
      refine ⟨ha, hb, ?_⟩
      intro m hm hterm
      have hmne : (m.id == msg.id) = false := by
        apply beq_eq_false_iff_ne.mpr
        intro he
        have heq : m = msg := nodup_ids_inj hnd hm hmsgmem he
        rw [heq] at hterm
        exact termStatus_ne_scheduled hterm hmsgstat
      exact hc' m (processOne_mem_of_ne hm hmne) hterm
    · rw [hstep, if_neg hd]
      exact ih s k hnd hpend (fun r hr => hrem r (List.mem_cons_of_mem _ hr))
        hremnd.2 hfresh

lemma cancelMessage_eq_none {d : AppData} {mid : Nat}
    (h : d.messages.find? (fun m => m.id == mid) = none) :
    cancelMessage d mid = d := by
  unfold cancelMessage
  split
  · rfl
  · rename_i mm heq
    rw [h] at heq
    exact Option.noConfusion heq

lemma cancelMessage_eq_found {d : AppData} {mid : Nat} {mm : ScheduledMessage}
    (h : d.messages.find? (fun m => m.id == mid) = some mm) :
    cancelMessage d mid =
      if mm.status == MessageStatus.scheduled then
        updateMessage d mid cancelUpdate
      else d := by
  unfold cancelMessage
  split
  · rename_i heq
    rw [h] at heq
    exact Option.noConfusion heq
  · rename_i mm' heq
    rw [h] at heq
    cases heq
    rfl

lemma cancelIf_id (cid : Nat) (m : ScheduledMessage) :
    (cancelIfScheduled cid m).id = m.id := by
  unfold cancelIfScheduled
  split <;> rfl

lemma cancelIf_eq_of_nonsched {cid : Nat} {m : ScheduledMessage}
    (h : m.status ≠ MessageStatus.scheduled) : cancelIfScheduled cid m = m := by
  have hb : (m.status == MessageStatus.scheduled) = false :=
    beq_eq_false_iff_ne.mpr h
  unfold cancelIfScheduled
  rw [if_neg (by simp [hb])]

lemma removeContact_ids (cid : Nat) (d : AppData) :
    msgIds (removeContact cid d).1 = msgIds d := by
  unfold removeContact
  by_cases h : (d.contacts.any (fun c => c.id == cid)) = true
  · rw [if_pos h]
    show (d.messages.map (cancelIfScheduled cid)).map (fun m => m.id) = _
    rw [List.map_map]
    exact List.map_congr_left (fun m _ => cancelIf_id cid m)
  · rw [if_neg h]

lemma removeContact_mem_nonsched (cid : Nat) (d : AppData) :
    ∀ m ∈ d.messages, m.status ≠ MessageStatus.scheduled →
      m ∈ (removeContact cid d).1.messages := by
  intro m hm hne
  unfold removeContact
  by_cases h : (d.contacts.any (fun c => c.id == cid)) = true
  · rw [if_pos h]
    show m ∈ d.messages.map (cancelIfScheduled cid)
    have himg := List.mem_map_of_mem (cancelIfScheduled cid) hm
    rw [cancelIf_eq_of_nonsched hne] at himg
    exact himg
  · rw [if_neg h]
    exact hm

lemma deliver_spec {d : AppData} {mid : Nat} (t : Nat)
    (hnd : (msgIds d).Nodup) {mp : ScheduledMessage} (hmp : mp ∈ d.messages)
    (hmpid : mp.id = mid) :
    msgIds (updateMessage d mid (deliverUpdate t)) = msgIds d ∧
    deliverUpdate t mp ∈ (updateMessage d mid (deliverUpdate t)).messages ∧
    (∀ m ∈ d.messages, m.id ≠ mid →
      m ∈ (updateMessage d mid (deliverUpdate t)).messages) := by
  refine ⟨?_, ?_, ?_⟩
  · show (updFirst mid (deliverUpdate t) d.messages).map (fun m => m.id) = _
    rw [updFirst_map_id (f := deliverUpdate t) mid (fun m => rfl)]
    rfl
  · show deliverUpdate t mp ∈ updFirst mid (deliverUpdate t) d.messages
    rw [updFirst_eq_map mid d.messages hnd]
    have h0 := List.mem_map_of_mem
      (fun x => if x.id == mid then deliverUpdate t x else x) hmp
    simpa [hmpid] using h0
  · intro m hm hne
    exact mem_updFirst_of_ne hm (beq_eq_false_iff_ne.mpr hne)

lemma scheduleAllGo_spec (now : Civil) (env : Nat → Fresh)
    (hdist : ∀ i j, i ≠ j → (env i).newId ≠ (env j).newId) :
    ∀ (cs : List Contact) (d : AppData) (k : Nat),
      (msgIds d).Nodup →
      (∀ j, k ≤ j → (env j).newId ∉ msgIds d) →
      (msgIds (scheduleAllGo now env cs d k)).Nodup ∧
      (∀ m ∈ d.messages, m ∈ (scheduleAllGo now env cs d k).messages) := by
  intro cs
  induction cs with
  | nil =>
    intro d k hnd _
    exact ⟨hnd, fun m hm => hm⟩
  | cons c t ih =>
    intro d k hnd hfresh
    have hstep : scheduleAllGo now env (c :: t) d k =
        scheduleAllGo now env t
          (scheduleMessagesForContact c.id d now (env k).newId (env k).body).1
          (k + 1) := rfl
    rw [hstep]
    have hids := sched_ids_cases c.id d now (env k).newId (env k).body
    have hnd1 : (msgIds (scheduleMessagesForContact c.id d now (env k).newId
        (env k).body).1).Nodup := by
      rcases hids with hc | hc
      · rw [hc]; exact hnd
      · rw [hc]
        exact nodup_append_singleton hnd (hfresh k (Nat.le_refl k))
    have hfresh1 : ∀ j, k + 1 ≤ j → (env j).newId ∉
        msgIds (scheduleMessagesForContact c.id d now (env k).newId
          (env k).body).1 := by
      intro j hj
      rcases hids with hc | hc
      · rw [hc]
        exact hfresh j (by omega)
      · rw [hc]
        intro hmem'
        rcases List.mem_append.mp hmem' with h | h
        · exact hfresh j (by omega) h
        · rw [List.mem_singleton] at h
          exact hdist j k (by omega) h
    obtain ⟨ha, hb⟩ := ih _ (k + 1) hnd1 hfresh1
    exact ⟨ha, fun m hm => hb m (sched_mem_mono hm)⟩

lemma stepOp_spec (s : Sys) (op : Op) (hinv : SysInv s) (hwf : WfOp s op) :
    SysInv (stepOp s op) ∧
    (∀ m ∈ s.data.messages, termStatus m.status →
      ∃ m' ∈ (stepOp s op).data.messages,
        m'.id = m.id ∧ statusStep m.status m'.status) := by
  obtain ⟨hnd, hpend⟩ := hinv
  cases op with
  | opSchedule cid now fr =>
    have hmono : ∀ m ∈ s.data.messages,
        m ∈ (scheduleMessagesForContact cid s.data now fr.newId
          fr.body).1.messages := fun m hm => sched_mem_mono hm
    refine ⟨⟨?_, ?_⟩, ?_⟩
    · show (msgIds (scheduleMessagesForContact cid s.data now fr.newId
        fr.body).1).Nodup
      rcases sched_ids_cases cid s.data now fr.newId fr.body with hc | hc
      · rw [hc]; exact hnd
      · rw [hc]
        exact nodup_append_singleton hnd hwf
    · intro mid hmid
      have h' : mid ∈ s.pending := hmid
      obtain ⟨mp, hmp, hx, hy⟩ := hpend mid h'
      exact ⟨mp, hmono mp hmp, hx, hy⟩
    · intro m hm hterm
      exact ⟨m, hmono m hm, rfl, Or.inl rfl⟩
  | opScheduleAll now env =>
    obtain ⟨hf, hdist⟩ := hwf
    obtain ⟨ha, hb⟩ := scheduleAllGo_spec now env hdist s.data.contacts
      s.data 0 hnd (fun j _ => hf j)
    refine ⟨⟨ha, ?_⟩, ?_⟩
    · intro mid hmid
      have h' : mid ∈ s.pending := hmid
      obtain ⟨mp, hmp, hx, hy⟩ := hpend mid h'
      exact ⟨mp, hb mp hmp, hx, hy⟩
    · intro m hm hterm
      exact ⟨m, hb m hm, rfl, Or.inl rfl⟩
  | opDispatch bundle now env =>
    obtain ⟨hf, hdist⟩ := hwf
    obtain ⟨ha, hb, hc⟩ := processDueGo_spec bundle now env hdist
      s.data.messages s 0 hnd hpend (fun r hr => hr) hnd (fun j _ => hf j)
    exact ⟨⟨ha, hb⟩, fun m hm hterm => ⟨m, hc m hm hterm, rfl, Or.inl rfl⟩⟩
  | opCancel mid =>
    cases hfm : s.data.messages.find? (fun m => m.id == mid) with
    | none =>
      have he := cancelMessage_eq_none hfm
      refine ⟨⟨?_, ?_⟩, ?_⟩
      · show (msgIds (cancelMessage s.data mid)).Nodup
        rw [he]
        exact hnd
      · intro mid' hmid'
        have h' : mid' ∈ s.pending := hmid'
        obtain ⟨mp, hmp, hx, hy⟩ := hpend mid' h'
        refine ⟨mp, ?_, hx, hy⟩
        show mp ∈ (cancelMessage s.data mid).messages
        rw [he]
        exact hmp
      · intro m hm hterm
        refine ⟨m, ?_, rfl, Or.inl rfl⟩
        show m ∈ (cancelMessage s.data mid).messages
        rw [he]
        exact hm
    | some mm =>
      have he := cancelMessage_eq_found hfm
      by_cases hsc : (mm.status == MessageStatus.scheduled) = true
      · rw [if_pos hsc] at he
        have h0 := List.find?_some hfm
        have hmmid' : (mm.id == mid) = true := h0
        have hmmid : mm.id = mid := by simpa using hmmid'
        have hmmst : mm.status = MessageStatus.scheduled := by simpa using hsc
        have hmmmem := List.mem_of_find?_eq_some hfm
        have hpres : ∀ m ∈ s.data.messages,
            m.status ≠ MessageStatus.scheduled →
            m ∈ (cancelMessage s.data mid).messages := by
          intro m hm hmne
          rw [he]
          apply mem_updFirst_of_ne hm
          apply beq_eq_false_iff_ne.mpr
          intro hid
          have heqm : m = mm := nodup_ids_inj hnd hm hmmmem (by rw [hid, hmmid])
          exact hmne (by rw [heqm, hmmst])
        refine ⟨⟨?_, ?_⟩, ?_⟩
        · show (msgIds (cancelMessage s.data mid)).Nodup
          rw [he]
          show ((updFirst mid cancelUpdate s.data.messages).map
            (fun m => m.id)).Nodup
          rw [updFirst_map_id (f := cancelUpdate) mid (fun m => rfl)]
          exact hnd
        · intro mid' hmid'
          have h' : mid' ∈ s.pending := hmid'
          obtain ⟨mp, hmp, hx, hy⟩ := hpend mid' h'
          have hne : mp.status ≠ MessageStatus.scheduled := by
            rcases hy with h | h <;> rw [h] <;> decide
          exact ⟨mp, hpres mp hmp hne, hx, hy⟩
        · intro m hm hterm
          exact ⟨m, hpres m hm (termStatus_ne_scheduled hterm), rfl,
            Or.inl rfl⟩
      · rw [if_neg hsc] at he
        refine ⟨⟨?_, ?_⟩, ?_⟩
        · show (msgIds (cancelMessage s.data mid)).Nodup
          rw [he]
          exact hnd
        · intro mid' hmid'
          have h' : mid' ∈ s.pending := hmid'
          obtain ⟨mp, hmp, hx, hy⟩ := hpend mid' h'
          refine ⟨mp, ?_, hx, hy⟩
          show mp ∈ (cancelMessage s.data mid).messages
          rw [he]
          exact hmp
        · intro m hm hterm
          refine ⟨m, ?_, rfl, Or.inl rfl⟩
          show m ∈ (cancelMessage s.data mid).messages
          rw [he]
          exact hm
  | opRemoveContact cid =>
    refine ⟨⟨?_, ?_⟩, ?_⟩
    · show (msgIds (removeContact cid s.data).1).Nodup
      rw [removeContact_ids cid s.data]
      exact hnd
    · intro mid' hmid'
      have h' : mid' ∈ s.pending := hmid'
      obtain ⟨mp, hmp, hx, hy⟩ := hpend mid' h'
      have hne : mp.status ≠ MessageStatus.scheduled := by
        rcases hy with h | h <;> rw [h] <;> decide
      exact ⟨mp, removeContact_mem_nonsched cid s.data mp hmp hne, hx, hy⟩
    · intro m hm hterm
      exact ⟨m, removeContact_mem_nonsched cid s.data m hm
        (termStatus_ne_scheduled hterm), rfl, Or.inl rfl⟩
  | opDeliver mid t =>
    obtain ⟨mp, hmp, hmpid, hmpst⟩ := hpend mid hwf
    obtain ⟨hids, hself, hothers⟩ := deliver_spec t hnd hmp hmpid
    refine ⟨⟨?_, ?_⟩, ?_⟩
    · show (msgIds (updateMessage s.data mid (deliverUpdate t))).Nodup
      rw [hids]
      exact hnd
    · intro mid' hmid'
      have h' : mid' ∈ s.pending := List.mem_of_mem_erase hmid'
      obtain ⟨mq, hmq, hqid, hqst⟩ := hpend mid' h'
      by_cases hq : mq.id = mid
      · have hqe : mq = mp := nodup_ids_inj hnd hmq hmp (by rw [hq, hmpid])
        refine ⟨deliverUpdate t mp, hself, ?_, Or.inr rfl⟩
        show mp.id = mid'
        rw [← hqe, hqid]
      · exact ⟨mq, hothers mq hmq hq, hqid, hqst⟩
    · intro m hm hterm
      by_cases hq : m.id = mid
      · have hme : m = mp := nodup_ids_inj hnd hm hmp (by rw [hq, hmpid])
        refine ⟨deliverUpdate t mp, hself, ?_, ?_⟩
        · show mp.id = m.id
          rw [hme]
        · show statusStep m.status MessageStatus.delivered
          rw [hme]
          rcases hmpst with h | h
          · exact Or.inr ⟨h, rfl⟩
          · exact Or.inl h.symm
      · exact ⟨m, hothers m hm hq, rfl, Or.inl rfl⟩

/-- C4: over any well-formed sequence of scheduling, dispatch, cancellation,
    subject-deletion and delayed delivered-update operations, an occurrence
    whose status is sent, delivered, failed or cancelled keeps that status,
    except for the single sent-to-delivered transition; a terminal status
    never reverts. -/
theorem c4_terminal_status_monotone (s : Sys) (ops : List Op)
    (hinv : SysInv s) (hwf : WfTrace s ops) :
    ∀ m ∈ s.data.messages, termStatus m.status →
      ∃ m' ∈ (runOps s ops).data.messages,
        m'.id = m.id ∧ statusStep m.status m'.status := by
  induction ops generalizing s with
  | nil =>
    intro m hm _
    exact ⟨m, hm, rfl, Or.inl rfl⟩
  | cons op rest ih =>
    obtain ⟨hwfop, hwftr⟩ := hwf
    obtain ⟨hinv1, hframe⟩ := stepOp_spec s op hinv hwfop
    intro m hm hterm
    obtain ⟨m1, hm1, hid1, hstep1⟩ := hframe m hm hterm
    obtain ⟨m2, hm2, hid2, hstep2⟩ := ih (stepOp s op) hinv1 hwftr m1 hm1
      (term_of_statusStep hterm hstep1)
    exact ⟨m2, hm2, hid2.trans hid1, statusStep_trans hstep1 hstep2⟩

/-- C4 witness: a failed occurrence survives a cancel attempt, a subject
    deletion, a dispatch cycle and a full-store re-schedule with its status
    intact. -/
theorem c4_terminal_status_monotone_witness :
    ∃ m' ∈ (runOps ⟨⟨[⟨7, "a", "p", 3, 15, 0⟩],
        [⟨100, 7, "a", "p", "b", 0, MessageStatus.failed,
          none, some "e", none, none, 0, 1⟩]⟩, []⟩
        [Op.opCancel 100, Op.opRemoveContact 7,
         Op.opDispatch none ⟨1, 1, 1, 0⟩ (fun k => ⟨200 + k, "c", 3⟩),
         Op.opScheduleAll ⟨1, 1, 1, 0⟩ (fun k => ⟨300 + k, "c", 3⟩)]).data.messages,
      m'.id = 100 ∧ statusStep MessageStatus.failed m'.status :=
  c4_terminal_status_monotone
    ⟨⟨[⟨7, "a", "p", 3, 15, 0⟩],
      [⟨100, 7, "a", "p", "b", 0, MessageStatus.failed,
        none, some "e", none, none, 0, 1⟩]⟩, []⟩
    [Op.opCancel 100, Op.opRemoveContact 7,
     Op.opDispatch none ⟨1, 1, 1, 0⟩ (fun k => ⟨200 + k, "c", 3⟩),
     Op.opScheduleAll ⟨1, 1, 1, 0⟩ (fun k => ⟨300 + k, "c", 3⟩)]
    ⟨by decide, fun mid hmid => absurd hmid (List.not_mem_nil mid)⟩
    ⟨trivial, trivial,
      ⟨fun i => by
          show (200 + i) ∉ ([100] : List Nat)
          simp
          omega,
        fun i j hij => by
          show 200 + i ≠ 200 + j
          omega⟩,
      ⟨fun i => by
          show (300 + i) ∉ ([100] : List Nat)
          simp
          omega,
        fun i j hij => by
          show 300 + i ≠ 300 + j
          omega⟩,
      trivial⟩
    ⟨100, 7, "a", "p", "b", 0, MessageStatus.failed,
      none, some "e", none, none, 0, 1⟩
    (List.mem_cons_self _ _)
    (Or.inr (Or.inr (Or.inl rfl)))
